import Mathlib

/-!
Verification development for the inktty rendering core.

This file contains a shallow embedding, in Lean 4, of the parts of the
inktty terminal emulator that its design specification makes testable
claims about:

* the e-paper emulation update rule (src/unnamed/part_007,
  inktty/gfx/epaper_emulation),
* the rectangle merger (src/inktty/utils/geometry.cpp),
* the terminal cell matrix (src/inktty/term/matrix.cpp),
* the layered memory display (src/inktty/gfx/display.cpp),
* the two-pass matrix renderer (src/unnamed/part_003).

C++ machine integers are modelled by Nat / Int with explicit reductions
(% 256, % 65536, ...) at the points where the C++ code narrows a wider
value to a fixed-width type.  Cell and pixel buffers are modelled as
total functions from integer indices; the C++ code only ever reads the
indices that the model writes, as noted at the individual definitions.
-/

namespace Inktty

/-- Greatest value of a 32-bit signed int; the invalid-rectangle sentinel
uses it (std::numeric_limits<int>::max() in geometry.hpp). -/
def intMax : Int := 2147483647

/-- Least value of a 32-bit signed int (std::numeric_limits<int>::min()). -/
def intMin : Int := -2147483648

/-- The integers a, a+1, ..., b (empty when b < a).  Models the C++ loop
idiom for (int i = a; i <= b; i++). -/
def intRange (a b : Int) : List Int :=
  List.map (fun (i : Nat) => a + (i : Int)) (List.range (b + 1 - a).toNat)

/-- The 2-D integer point of geometry.hpp. -/
structure Point where
  x : Int
  y : Int
deriving DecidableEq

/-- The axis-aligned rectangle of geometry.hpp, with corner points
(x0, y0) and (x1, y1). -/
structure Rect where
  x0 : Int
  y0 : Int
  x1 : Int
  y1 : Int
deriving DecidableEq

namespace Rect

/-- The default-constructed, invalid rectangle Rect() of geometry.hpp:
min/max int sentinels. -/
def invalid : Rect := ⟨intMax, intMax, intMin, intMin⟩

/-- Rect::valid(). -/
def valid (r : Rect) : Bool := r.x0 ≤ r.x1 && r.y0 ≤ r.y1

/-- Rect::width(). -/
def width (r : Rect) : Int := r.x1 - r.x0

/-- Rect::height(). -/
def height (r : Rect) : Int := r.y1 - r.y0

/-- Rect::area(). -/
def area (r : Rect) : Int := r.width * r.height

/-- Rect::sized(x, y, w, h). -/
def sized (x y w h : Int) : Rect := ⟨x, y, x + w, y + h⟩

/-- Rect::grow(const Rect &). -/
def grow (r s : Rect) : Rect :=
  ⟨min r.x0 s.x0, min r.y0 s.y0, max r.x1 s.x1, max r.y1 s.y1⟩

/-- Rect::grow(const Point &). -/
def growPoint (r : Rect) (p : Point) : Rect :=
  ⟨min r.x0 p.x, min r.y0 p.y, max r.x1 p.x, max r.y1 p.y⟩

/-- Rect::clipx(x, border). -/
def clipx (r : Rect) (x : Int) (border : Bool) : Int :=
  if border then (if x < r.x0 then r.x0 else if x > r.x1 then r.x1 else x)
  else (if x < r.x0 then r.x0 else if x ≥ r.x1 then r.x1 - 1 else x)

/-- Rect::clipy(y, border). -/
def clipy (r : Rect) (y : Int) (border : Bool) : Int :=
  if border then (if y < r.y0 then r.y0 else if y > r.y1 then r.y1 else y)
  else (if y < r.y0 then r.y0 else if y ≥ r.y1 then r.y1 - 1 else y)

/-- Rect::clip(const Point &, border). -/
def clipPoint (r : Rect) (p : Point) (border : Bool) : Point :=
  ⟨r.clipx p.x border, r.clipy p.y border⟩

/-- Rect::clip(const Rect &). -/
def clip (r s : Rect) : Rect :=
  ⟨r.clipx s.x0 false, r.clipy s.y0 false, r.clipx s.x1 true, r.clipy s.y1 true⟩

end Rect

/-- The 32-bit RGBA colour of utils/color.hpp.  The four fields are
uint8_t values; all constructing operations reduce modulo 256 exactly
where the C++ code narrows to uint8_t. -/
structure RGBA where
  r : Nat
  g : Nat
  b : Nat
  a : Nat
deriving DecidableEq

namespace RGBA

/-- RGBA::Black. -/
def Black : RGBA := ⟨0, 0, 0, 255⟩

/-- RGBA::White. -/
def White : RGBA := ⟨255, 255, 255, 255⟩

/-- All four components are in the uint8_t range.  In the C++ code this
holds by the types; the Nat model carries it as a predicate. -/
def wf (c : RGBA) : Prop := c.r ≤ 255 ∧ c.g ≤ 255 ∧ c.b ≤ 255 ∧ c.a ≤ 255

instance (c : RGBA) : Decidable c.wf := by
  unfold wf
  infer_instance

/-- RGBA::premultiply_alpha(): componentwise r * a / 255, computed in
uint16_t and narrowed back to uint8_t. -/
def premultiply_alpha (c : RGBA) : RGBA :=
  ⟨c.r * c.a / 255 % 256, c.g * c.a / 255 % 256, c.b * c.a / 255 % 256, c.a⟩

end RGBA

/-- The UpdateMode of gfx/display.hpp (src/unnamed/part_004): an output
operation and a mask operation, both bit-flag words. -/
structure UpdateMode where
  output_op : Nat
  mask_op : Nat
deriving DecidableEq

namespace UpdateMode

/-- OutputOp::Identity. -/
def Identity : Nat := 0x00

/-- OutputOp::ForceMono. -/
def ForceMono : Nat := 0x01

/-- OutputOp::Invert. -/
def Invert : Nat := 0x02

/-- OutputOp::InvertAndForceMono. -/
def InvertAndForceMono : Nat := 0x03

/-- OutputOp::White. -/
def White : Nat := 0x04

/-- MaskOp::Full. -/
def Full : Nat := 0x00

/-- MaskOp::SourceMono. -/
def SourceMono : Nat := 0x01

/-- MaskOp::TargetMono. -/
def TargetMono : Nat := 0x02

/-- MaskOp::SourceAndTargetMono. -/
def SourceAndTargetMono : Nat := 0x03

/-- MaskOp::Partial. -/
def Partial : Nat := 0x04

end UpdateMode

namespace epaper_emulation

/-- The 16-entry greyscale ramp of epaper_emulation::greyscale_to_rgba. -/
def greyscale_lookup : List Nat :=
  [0, 17, 34, 51, 68, 85, 102, 119, 136, 153, 170, 187, 204, 221, 238, 255]

/-- epaper_emulation::rgba_to_greyscale: luminance (77 r + 151 g + 28 b) >> 12,
with the three products computed in uint16_t and the result narrowed to
uint8_t. -/
def rgba_to_greyscale (x : RGBA) : Nat :=
  ((x.r * 77 % 65536) + (x.g * 151 % 65536) + (x.b * 28 % 65536)) / 4096 % 256

/-- epaper_emulation::greyscale_to_rgba: index the 16-level ramp with the
low four bits; alpha 0xFF. -/
def greyscale_to_rgba (g : Nat) : RGBA :=
  let x := greyscale_lookup.getD (g % 16) 0
  ⟨x, x, x, 255⟩

/-- The per-pixel core of epaper_emulation::update (part_007 lines 44-81):
given the 4-bit greyscale values of the source and the target pixel,
apply Invert and ForceMono to the source, compute the mask, then apply
White, and write back the source greyscale if the pixel is not masked,
the target greyscale otherwise. -/
def update_grey (mode : UpdateMode) (g_src g_tar : Nat) : Nat :=
  let g1 := if mode.output_op &&& UpdateMode.Invert ≠ 0 then 15 - g_src else g_src
  let g2 := if mode.output_op &&& UpdateMode.ForceMono ≠ 0 then
      (if g1 > 7 then 15 else 0) else g1
  let masked :=
    (decide (mode.mask_op &&& UpdateMode.SourceMono ≠ 0) &&
      (decide (g2 ≠ 0) && decide (g2 ≠ 15))) ||
    (decide (mode.mask_op &&& UpdateMode.TargetMono ≠ 0) &&
      (decide (g_tar ≠ 0) && decide (g_tar ≠ 15))) ||
    (decide (mode.mask_op &&& UpdateMode.Partial ≠ 0) && decide (g_tar = g2))
  let g3 := if mode.output_op &&& UpdateMode.White ≠ 0 then 15 else g2
  if masked then g_tar else g3

/-- The per-pixel effect of epaper_emulation::update on an RGBA source and
target pixel (with an identity colour layout): both pixels are converted
to greyscale, the greyscale core runs, and the result goes through the
16-level ramp. -/
def update_pixel (mode : UpdateMode) (c_tar c_src : RGBA) : RGBA :=
  greyscale_to_rgba (update_grey mode (rgba_to_greyscale c_src) (rgba_to_greyscale c_tar))

/-- The update rule exactly as the claim states it: the output operation
(including White) is applied to g_src before the mask is computed; output
is g_tar when mask_op is Partial and the (post-op) source equals the
target, or when mask_op is SourceMono and the (post-op) source is strictly
between 0 and 15; otherwise the post-op source. -/
def update_grey_claimed (mode : UpdateMode) (g_src g_tar : Nat) : Nat :=
  let g1 := if mode.output_op &&& UpdateMode.Invert ≠ 0 then 15 - g_src else g_src
  let g2 := if mode.output_op &&& UpdateMode.ForceMono ≠ 0 then
      (if g1 > 7 then 15 else 0) else g1
  let gp := if mode.output_op &&& UpdateMode.White ≠ 0 then 15 else g2
  if mode.mask_op = UpdateMode.Partial && decide (gp = g_tar) then g_tar
  else if mode.mask_op = UpdateMode.SourceMono && (decide (0 < gp) && decide (gp < 15)) then g_tar
  else gp

/-- The output operation restricted to the Invert and ForceMono bits,
which is what the implementation feeds into the mask computation. -/
def apply_invert_forcemono (oop g : Nat) : Nat :=
  let g1 := if oop &&& UpdateMode.Invert ≠ 0 then 15 - g else g
  if oop &&& UpdateMode.ForceMono ≠ 0 then (if g1 > 7 then 15 else 0) else g1

/-- The full output operation: Invert, then ForceMono, then White. -/
def apply_output_op (oop g : Nat) : Nat :=
  if oop &&& UpdateMode.White ≠ 0 then 15 else apply_invert_forcemono oop g

/-- The mask predicate in the spec wording: a pixel is masked (skipped)
when the SourceMono flag is set and the source, after Invert/ForceMono but
before White, is strictly between 0 and 15; or when the TargetMono flag
is set and the target is strictly between 0 and 15; or when the Partial
flag is set and the target equals the source after Invert/ForceMono. -/
def mask_hits (mode : UpdateMode) (g_src g_tar : Nat) : Prop :=
  (mode.mask_op &&& UpdateMode.SourceMono ≠ 0 ∧
    0 < apply_invert_forcemono mode.output_op g_src ∧
    apply_invert_forcemono mode.output_op g_src < 15) ∨
  (mode.mask_op &&& UpdateMode.TargetMono ≠ 0 ∧ 0 < g_tar ∧ g_tar < 15) ∨
  (mode.mask_op &&& UpdateMode.Partial ≠ 0 ∧
    g_tar = apply_invert_forcemono mode.output_op g_src)

instance (mode : UpdateMode) (g_src g_tar : Nat) :
    Decidable (mask_hits mode g_src g_tar) := by
  unfold mask_hits
  infer_instance

end epaper_emulation

namespace RectangleMerger

/-- The merge condition of RectangleMerger::Impl::search_matching_rectangle
(geometry.cpp line 48): r_area + s_area >= (3 * rs.area()) / 4, with the
truncating integer division of C++. -/
def mergeCond (r s : Rect) : Bool :=
  Rect.area r + Rect.area s ≥ (3 * Rect.area (r.grow s)).tdiv 4

/-- search_matching_rectangle(r, 0, l.length): scan the indices from the
highest to the lowest and return the first index whose rectangle
satisfies the merge condition. -/
def searchMatching (r : Rect) : List Rect → Option Nat
  | [] => none
  | s :: rest =>
    match searchMatching r rest with
    | some i => some (i + 1)
    | none => if mergeCond r s then some 0 else none

/-- RectangleMerger::Impl::insert: replace the found rectangle by its
bounding box with r, or append r. -/
def insert (l : List Rect) (r : Rect) : List Rect :=
  match searchMatching r l with
  | some i => l.set i ((l.getD i Rect.invalid).grow r)
  | none => l ++ [r]

/-- One iteration of the merge() pass at index i: search a partner among
the indices below i; on a match grow the partner and invalidate entry i,
recording that a merge was found. -/
def mergePassStep (st : List Rect × Bool) (i : Nat) : List Rect × Bool :=
  let l := st.1
  let ri := l.getD i Rect.invalid
  match searchMatching ri (l.take i) with
  | some idx => ((l.set idx ((l.getD idx Rect.invalid).grow ri)).set i Rect.invalid, true)
  | none => st

/-- One full pass of RectangleMerger::Impl::merge: the index i runs from
the last entry down to 1. -/
def mergePass (l : List Rect) : List Rect × Bool :=
  (((List.range l.length).reverse).filter (fun i => decide (1 ≤ i))).foldl mergePassStep (l, false)

/-- The do/while loop of merge(): repeat passes, removing invalid
rectangles after each pass that found a merge, until a pass finds none.
Each successful pass removes at least one rectangle, so the loop runs at
most length + 1 times; the fuel argument carries that bound. -/
def mergeLoop : Nat → List Rect → List Rect
  | 0, l => l
  | fuel + 1, l =>
    let p := mergePass l
    if p.2 then mergeLoop fuel (p.1.filter Rect.valid) else p.1

/-- RectangleMerger::Impl::merge(). -/
def merge (l : List Rect) : List Rect := mergeLoop (l.length + 1) l

/-- The merger state instrumented with provenance: each tracked rectangle
carries the list of inserted source rectangles that were merged into it.
The first components evolve exactly as in the plain definitions. -/
def searchMatchingS (r : Rect) : List (Rect × List Rect) → Option Nat
  | [] => none
  | s :: rest =>
    match searchMatchingS r rest with
    | some i => some (i + 1)
    | none => if mergeCond r s.1 then some 0 else none

/-- insert on the instrumented state: a merged rectangle accumulates the
sources of both operands. -/
def insertS (l : List (Rect × List Rect)) (r : Rect) : List (Rect × List Rect) :=
  match searchMatchingS r l with
  | some i =>
    let e := l.getD i (Rect.invalid, [])
    l.set i (e.1.grow r, e.2 ++ [r])
  | none => l ++ [(r, [r])]

/-- One iteration of the instrumented merge pass at index i. -/
def mergePassStepS (st : List (Rect × List Rect) × Bool) (i : Nat) :
    List (Rect × List Rect) × Bool :=
  let l := st.1
  let ei := l.getD i (Rect.invalid, [])
  match searchMatchingS ei.1 (l.take i) with
  | some idx =>
    let e := l.getD idx (Rect.invalid, [])
    ((l.set idx (e.1.grow ei.1, e.2 ++ ei.2)).set i (Rect.invalid, []), true)
  | none => st

/-- One full instrumented pass. -/
def mergePassS (l : List (Rect × List Rect)) : List (Rect × List Rect) × Bool :=
  (((List.range l.length).reverse).filter (fun i => decide (1 ≤ i))).foldl mergePassStepS (l, false)

/-- The instrumented merge loop. -/
def mergeLoopS : Nat → List (Rect × List Rect) → List (Rect × List Rect)
  | 0, l => l
  | fuel + 1, l =>
    let p := mergePassS l
    if p.2 then mergeLoopS fuel (p.1.filter (fun e => Rect.valid e.1)) else p.1

/-- The instrumented merge(). -/
def mergeS (l : List (Rect × List Rect)) : List (Rect × List Rect) :=
  mergeLoopS (l.length + 1) l

/-- Insert a sequence of rectangles into a fresh merger and run merge(),
tracking sources. -/
def runS (rs : List Rect) : List (Rect × List Rect) :=
  mergeS (rs.foldl insertS [])

/-- Sum of the areas of a list of rectangles. -/
def sumArea (l : List Rect) : Int := (l.map Rect.area).sum

end RectangleMerger

/-- The colour variant of utils/color.hpp: an indexed colour or a direct
RGBA colour, with field-wise equality. -/
inductive Color where
  | indexed (idx : Int)
  | rgb (c : RGBA)
deriving DecidableEq

/-- The cell style used by term/matrix.cpp.  The header declaring this
Style version is not part of the source snapshot (term/matrix.cpp is its
only user here); the field list follows spec section 3 and the accesses
in term/matrix.cpp, and equality compares all fields, as in the older
Style declarations present in the snapshot. -/
structure Style where
  fg : Color
  bg : Color
  default_fg : Bool
  default_bg : Bool
  concealed : Bool
  bold : Bool
  italic : Bool
  strikethrough : Bool
  inverse : Bool
  underline : Nat
deriving DecidableEq

/-- Modelled from the spec: the default Style.  Only self-consistency of
the default matters for the verified claims, not the concrete values. -/
def Style.default : Style :=
  ⟨Color.indexed 7, Color.indexed 0, true, true, false, false, false, false, false, 0⟩

/-- Matrix::Cell: glyph, style, cursor flag and dirty flag.  The default
cell is blank with the dirty flag set. -/
structure Cell where
  glyph : Nat
  style : Style
  cursor : Bool
  dirty : Bool
deriving DecidableEq

/-- The default-constructed Cell(). -/
def Cell.default : Cell := ⟨0, Style.default, false, true⟩

/-- Matrix::Cell::invisible (term/matrix.cpp lines 27-38). -/
def Cell.invisible (c : Cell) : Bool :=
  if c.style.concealed then true
  else if c.style.strikethrough || decide (c.style.underline ≠ 0) then false
  else if decide (c.glyph = 0) || decide (c.glyph = 32) then true
  else false

/-- The effective-foreground comparison block of needs_update
(term/matrix.cpp lines 61-68 and 98-105): the default_fg flags differ, or
both are false and the fg colours differ. -/
def Style.cmpFgPair (s so : Style) : Bool :=
  decide (s.default_fg ≠ so.default_fg) || (!s.default_fg && decide (s.fg ≠ so.fg))

/-- The effective-background comparison block of needs_update
(term/matrix.cpp lines 70-77 and 89-96). -/
def Style.cmpBgPair (s so : Style) : Bool :=
  decide (s.default_bg ≠ so.default_bg) || (!s.default_bg && decide (s.bg ≠ so.bg))

/-- Matrix::Cell::needs_update (term/matrix.cpp lines 40-108), with the
early-return chain flattened into a disjunction in the original order. -/
def Cell.needs_update (c old : Cell) : Bool :=
  if !c.dirty then false
  else
    let inv := xor c.cursor c.style.inverse
    let invOld := xor old.cursor old.style.inverse
    if inv ≠ invOld then true
    else
      let needCheckFg := !(c.invisible && old.invisible)
      let fgPart :=
        decide (c.glyph ≠ old.glyph) ||
        (if inv then Style.cmpBgPair c.style old.style
         else Style.cmpFgPair c.style old.style) ||
        decide (c.style.bold ≠ old.style.bold) ||
        decide (c.style.italic ≠ old.style.italic) ||
        decide (c.style.strikethrough ≠ old.style.strikethrough) ||
        decide (c.style.underline ≠ old.style.underline)
      let bgPart :=
        if inv then Style.cmpFgPair c.style old.style
        else Style.cmpBgPair c.style old.style
      (needCheckFg && fgPart) || bgPart

/-- Matrix::CellUpdate. -/
structure CellUpdate where
  pos : Point
  current : Cell
  old : Cell
deriving DecidableEq

/-- The state of the Matrix of term/matrix.cpp.  The two cell buffers are
total functions on 0-based integer indices; all operations only read the
indices inside the matrix that they or prior operations wrote, mirroring
the vector-of-vectors of the C++ code. -/
structure Matrix where
  cells : Int → Int → Cell
  cells_old : Int → Int → Cell
  pos : Point
  pos_last : Point
  pos_old : Point
  size : Point
  cursor_visible : Bool
  cursor_visible_old : Bool
  update_bounds : Rect

namespace Matrix

/-- Point update of a cell grid at row y, column x (0-based). -/
def setCell (g : Int → Int → Cell) (y x : Int) (c : Cell) : Int → Int → Cell :=
  fun yy xx => if yy = y ∧ xx = x then c else g yy xx

/-- Matrix::valid (term/matrix.cpp lines 124-126). -/
def valid (m : Matrix) (p : Point) : Bool :=
  p.x ≥ 1 && p.y ≥ 1 && p.x ≤ m.size.x && p.y ≤ m.size.y

/-- Matrix::extend_update_bounds (term/matrix.cpp lines 128-133): the
min/max update is exactly Rect::grow with a point. -/
def extend_update_bounds (m : Matrix) (p : Point) : Matrix :=
  { m with update_bounds := m.update_bounds.growPoint p }

/-- Matrix::set (term/matrix.cpp lines 208-225). -/
def set (m : Matrix) (glyph : Nat) (style : Style) (pos : Point) : Matrix :=
  if !m.valid pos then m
  else
    let c := m.cells (pos.y - 1) (pos.x - 1)
    if decide (glyph ≠ c.glyph) || decide (style ≠ c.style) then
      let c2 := { c with glyph := glyph, style := style, dirty := true }
      extend_update_bounds
        { m with cells := setCell m.cells (pos.y - 1) (pos.x - 1) c2 } pos
    else m

/-- Matrix::reset (term/matrix.cpp lines 135-158): home the cursor, show
it, and set every cell of the matrix to the blank default (the resize of
the backing vectors is implicit in the total-function representation). -/
def reset (m : Matrix) : Matrix :=
  let m1 := { m with pos := (⟨1, 1⟩ : Point), pos_last := (⟨1, 1⟩ : Point),
                     cursor_visible := true }
  (intRange 1 m1.size.y).foldl
    (fun acc y => (intRange 1 acc.size.x).foldl
      (fun acc2 x => acc2.set 0 Style.default ⟨x, y⟩) acc)
    m1

/-- The Matrix constructor (term/matrix.cpp lines 114-122). -/
def init (rows cols : Int) : Matrix :=
  reset { cells := fun _ _ => Cell.default, cells_old := fun _ _ => Cell.default,
          pos := ⟨1, 1⟩, pos_last := ⟨1, 1⟩, pos_old := ⟨1, 1⟩,
          size := ⟨cols, rows⟩,
          cursor_visible := true, cursor_visible_old := false,
          update_bounds := Rect.invalid }

/-- Matrix::move_abs (term/matrix.cpp lines 203-206). -/
def move_abs (m : Matrix) (pos : Point) : Matrix :=
  let p := (Rect.mk 1 1 m.size.x m.size.y).clipPoint pos true
  { m with pos := p, pos_last := p }

/-- The while loop of Matrix::move_rel (term/matrix.cpp lines 190-193):
while pos.x > size.x subtract size.x and advance the row.  The fuel bounds
the iteration count; it suffices whenever size.x >= 1, and when
size.x <= 0 with pos.x > size.x the C++ loop does not terminate. -/
def wrapLoop : Nat → Int → Point → Point
  | 0, _, p => p
  | fuel + 1, sx, p => if p.x > sx then wrapLoop fuel sx ⟨p.x - sx, p.y + 1⟩ else p

/-- Matrix::scroll (term/matrix.cpp lines 243-274).  The row loop
for (y_tar = y0; y_tar <= y1; y_tar += dir) visits y0..y1 when dir = 1;
when dir = -1 it performs no iteration for y0 > y1, and the remaining
case (dir = -1 with y0 = y1, i.e. any nonzero scroll on a matrix with
exactly one row) does not terminate in the C++ code and is modelled as
no iteration. -/
def scroll (m : Matrix) (n : Int) : Matrix :=
  if n = 0 then m
  else
    let y0 : Int := if n > 0 then 1 else m.size.y
    let y1 : Int := if n > 0 then m.size.y else 1
    let dir : Int := if y1 > y0 then 1 else -1
    let rows := if dir = 1 then intRange y0 y1 else []
    let cells2 := rows.foldl (fun g y_tar =>
      let y_src := y_tar + n
      if y_src < 1 || y_src > m.size.y then
        fun yy xx => if yy = y_tar - 1 then Cell.default else g yy xx
      else
        (intRange 1 m.size.x).foldl (fun g2 x =>
          setCell g2 (y_tar - 1) (x - 1) ({ g2 (y_src - 1) (x - 1) with dirty := true })) g)
      m.cells
    { m with cells := cells2,
             pos_old := ⟨m.pos_old.x, m.pos_old.y - n⟩,
             pos_last := ⟨m.pos_last.x, m.pos_last.y - n⟩,
             update_bounds := ⟨1, 1, m.size.x, m.size.y⟩ }

/-- Matrix::move_rel (term/matrix.cpp lines 187-201). -/
def move_rel (m : Matrix) (delta : Point) (wrap : Bool) : Matrix :=
  let m1 := { m with pos := (⟨m.pos.x + delta.x, m.pos.y + delta.y⟩ : Point) }
  let m2 :=
    if wrap then
      let p := wrapLoop (m1.pos.x - m1.size.x).toNat m1.size.x m1.pos
      let m1b := { m1 with pos := p }
      if m1b.pos.y > m1b.size.y then
        let n := m1b.pos.y - m1b.size.y
        let m1c := m1b.scroll n
        { m1c with pos := (⟨m1c.pos.x, m1c.pos.y - n⟩ : Point) }
      else m1b
    else m1
  m2.move_abs m2.pos

/-- Matrix::write (term/matrix.cpp lines 227-241). -/
def write (m : Matrix) (glyph : Nat) (style : Style) (replaces_last : Bool) : Matrix :=
  let m1 := if replaces_last then { m with pos := m.pos_last } else m
  let m2 := m1.set glyph style m1.pos
  let m3 := { m2 with pos_last := m2.pos }
  m3.move_rel ⟨1, 0⟩ true

/-- Matrix::fill.  term/matrix.cpp does not define fill; this follows the
fill of the matrix translation unit src/unnamed/part_010 lines 195-204
(and spec section 4.1): an inclusive rectangular fill in reading order,
row by row from the from-cursor to the to-cursor, implemented through
set. -/
def fill (m : Matrix) (glyph : Nat) (style : Style) (pFrom pTo : Point) : Matrix :=
  (intRange pFrom.y pTo.y).foldl (fun acc row =>
    let col0 := if row = pFrom.y then pFrom.x else 1
    let col1 := if row = pTo.y then pTo.x else acc.size.x
    (intRange col0 col1).foldl (fun a2 col => a2.set glyph style ⟨col, row⟩) acc) m

/-- The cursor-flag bookkeeping prologue of Matrix::commit
(term/matrix.cpp lines 277-291): clear the cursor flag at the old cursor
position, set it at the current one; both cells become dirty and extend
the update bounds. -/
def commit_cursor (m : Matrix) : Matrix :=
  let m1 :=
    if m.cursor_visible_old && m.valid m.pos_old then
      let c2 := { m.cells (m.pos_old.y - 1) (m.pos_old.x - 1) with
                  cursor := false, dirty := true }
      extend_update_bounds
        { m with cells := setCell m.cells (m.pos_old.y - 1) (m.pos_old.x - 1) c2 } m.pos_old
    else m
  if m1.cursor_visible && m1.valid m1.pos then
    let c2 := { m1.cells (m1.pos.y - 1) (m1.pos.x - 1) with
                cursor := true, dirty := true }
    extend_update_bounds
      { m1 with cells := setCell m1.cells (m1.pos.y - 1) (m1.pos.x - 1) c2 } m1.pos
  else m1

/-- The scan order of the commit loop (term/matrix.cpp lines 294-295):
all points (x, y) with y in [y0, y1] and x in [x0, x1], y outer. -/
def scanPoints (b : Rect) : List Point :=
  (intRange b.y0 b.y1).flatMap (fun y => (intRange b.x0 b.x1).map (fun x => ⟨x, y⟩))

/-- One iteration of the commit scan (term/matrix.cpp lines 296-309):
append an update if the cell needs one, then clear the dirty flag and
copy the current cell over the old cell. -/
def commit_scan_step (st : (Int → Int → Cell) × (Int → Int → Cell) × List CellUpdate)
    (p : Point) : (Int → Int → Cell) × (Int → Int → Cell) × List CellUpdate :=
  let cell := st.1 (p.y - 1) (p.x - 1)
  let cell_old := st.2.1 (p.y - 1) (p.x - 1)
  let upds2 := if cell.needs_update cell_old then st.2.2 ++ [⟨p, cell, cell_old⟩] else st.2.2
  let cell2 := { cell with dirty := false }
  (setCell st.1 (p.y - 1) (p.x - 1) cell2, setCell st.2.1 (p.y - 1) (p.x - 1) cell2, upds2)

/-- Matrix::commit (term/matrix.cpp lines 276-315): cursor bookkeeping,
the scan over the update bounds, and the cursor backup.  The update
bounds are left untouched by the C++ code. -/
def commit (m : Matrix) : List CellUpdate × Matrix :=
  let m1 := commit_cursor m
  let st := (scanPoints m1.update_bounds).foldl commit_scan_step (m1.cells, m1.cells_old, [])
  (st.2.2, { m1 with cells := st.1, cells_old := st.2.1,
                     pos_old := m1.pos, cursor_visible_old := m1.cursor_visible })

/-- The update list that the claim describes: exactly the scanned cells
whose needs_update holds against the old buffer, in scan order, built
from the state after cursor bookkeeping. -/
def commit_spec (m1 : Matrix) : List CellUpdate :=
  (scanPoints m1.update_bounds).filterMap (fun p =>
    if (m1.cells (p.y - 1) (p.x - 1)).needs_update (m1.cells_old (p.y - 1) (p.x - 1))
    then some ⟨p, m1.cells (p.y - 1) (p.x - 1), m1.cells_old (p.y - 1) (p.x - 1)⟩
    else none)

/-- The mutating operations the claims quantify over. -/
inductive Op where
  | set (glyph : Nat) (style : Style) (pos : Point)
  | write (glyph : Nat) (style : Style) (replaces_last : Bool)
  | fill (glyph : Nat) (style : Style) (pFrom pTo : Point)
  | scroll (n : Int)

/-- Apply one operation. -/
def applyOp (m : Matrix) : Op → Matrix
  | Op.set g s p => m.set g s p
  | Op.write g s r => m.write g s r
  | Op.fill g s a b => m.fill g s a b
  | Op.scroll n => m.scroll n

/-- Apply a sequence of operations. -/
def run (m : Matrix) (ops : List Op) : Matrix := ops.foldl applyOp m

end Matrix

/-- The pixel holds premultiplied alpha: every colour component is at
most the alpha component. -/
def RGBA.premultiplied (c : RGBA) : Prop := c.r ≤ c.a ∧ c.g ≤ c.a ∧ c.b ≤ c.a

instance (c : RGBA) : Decidable c.premultiplied := by
  unfold RGBA.premultiplied
  infer_instance

/-- MemoryDisplay::CommitRequest (gfx/display.hpp). -/
structure CommitRequest where
  r : Rect
  mode : UpdateMode
deriving DecidableEq

/-- Display::Layer (gfx/display.hpp): the two compositing layers. -/
inductive Layer where
  | Background
  | Presentation
deriving DecidableEq

/-- Display::DrawMode (gfx/display.hpp). -/
inductive DrawMode where
  | Write
  | Erase
deriving DecidableEq

/-- The state of MemoryDisplay::Impl (display.cpp): lock counter, buffer
geometry, display and surface rectangles, the queued commit requests,
and the three pixel buffers as total functions on (x, y).  The stride
and 16-byte row padding of the C++ buffers are address arithmetic with
no per-pixel effect and are not modelled; a geometry change relayouts
and zero-extends whole RGBA entries, which the verified claims never
observe (they start from the zero-initialised display). -/
structure MemoryDisplay where
  locked : Nat
  width : Nat
  height : Nat
  display_rect : Rect
  surf_rect : Rect
  commit_requests : List CommitRequest
  composite : Int → Int → RGBA
  layer_bg : Int → Int → RGBA
  layer_presentation : Int → Int → RGBA

namespace MemoryDisplay

/-- The freshly constructed MemoryDisplay::Impl (display.cpp lines
120-128): zero counter, zero geometry, empty buffers. -/
def initial : MemoryDisplay :=
  { locked := 0, width := 0, height := 0,
    display_rect := ⟨0, 0, 0, 0⟩, surf_rect := ⟨0, 0, 0, 0⟩,
    commit_requests := [],
    composite := fun _ _ => ⟨0, 0, 0, 0⟩,
    layer_bg := fun _ _ => ⟨0, 0, 0, 0⟩,
    layer_presentation := fun _ _ => ⟨0, 0, 0, 0⟩ }

/-- MemoryDisplay::Impl::resize (display.cpp lines 69-85).  The guard
returns early when w equals the old width OR h equals the old height -
so a change of a single dimension never resizes the buffers, although
the comment above the guard in the source says: do nothing if the size
did not change. -/
def resize (s : MemoryDisplay) (w h : Nat) : MemoryDisplay :=
  if w = s.width ∨ h = s.height then s
  else { s with width := w, height := h }

/-- MemoryDisplay::Impl::lock (display.cpp lines 130-148), with the
result of the backend hook do_lock passed as the dl argument.  Returns
the new state and the surface rectangle handed to the caller. -/
def lock (s : MemoryDisplay) (dl : Rect) : MemoryDisplay × Rect :=
  let s1 :=
    if s.locked = 0 then
      if dl.valid then
        let s2 := s.resize dl.width.toNat dl.height.toNat
        { s2 with display_rect := dl,
                  surf_rect := ⟨0, 0, (s2.width : Int), (s2.height : Int)⟩ }
      else s
    else s
  ({ s1 with locked := s1.locked + 1 }, s1.surf_rect)

/-- The per-pixel blend of MemoryDisplay::Impl::compose (display.cpp
lines 105-115): the background is treated as opaque, the presentation
holds premultiplied alpha, the three uint16_t channel values are
narrowed to uint8_t by the RGBA constructor and alpha becomes 255. -/
def compose_pixel (bg pr : RGBA) : RGBA :=
  ⟨(bg.r * (255 - pr.a) / 255 + pr.r) % 256,
   (bg.g * (255 - pr.a) / 255 + pr.g) % 256,
   (bg.b * (255 - pr.a) / 255 + pr.b) % 256, 255⟩

/-- MemoryDisplay::Impl::compose over one rectangle (display.cpp lines
87-117; x1 and y1 exclusive).  The loop reads only the two layers and
writes only the composite, so the per-pixel loop collapses to this
simultaneous update. -/
def compose (s : MemoryDisplay) (r : Rect) : MemoryDisplay :=
  let comp2 := fun x y =>
    if r.x0 ≤ x ∧ x < r.x1 ∧ r.y0 ≤ y ∧ y < r.y1 then
      compose_pixel (s.layer_bg x y) (s.layer_presentation x y)
    else s.composite x y
  { s with composite := comp2 }

/-- MemoryDisplay::Impl::unlock (display.cpp lines 150-173): on the
final unlock every queued rectangle is composed and the request is
translated by the display origin; the queue is cleared.  The returned
list is the argument that do_unlock receives.  (The C++ loop interleaves
the compose and the translation per request; composing reads only the
layers and writes only the composite while the translation only
rewrites the queue entries, so the two phases commute.) -/
def unlock (s : MemoryDisplay) : MemoryDisplay × List CommitRequest :=
  if s.locked > 0 then
    let s1 := { s with locked := s.locked - 1 }
    if s1.locked = 0 then
      let s2 := s1.commit_requests.foldl (fun acc req => compose acc req.r) s1
      let out := s2.commit_requests.map (fun req =>
        { req with r := ⟨req.r.x0 + s2.display_rect.x0, req.r.y0 + s2.display_rect.y0,
                         req.r.x1 + s2.display_rect.x0, req.r.y1 + s2.display_rect.y0⟩ })
      ({ s2 with commit_requests := [] }, out)
    else (s1, [])
  else (s, [])

/-- MemoryDisplay::Impl::commit (display.cpp lines 175-190). -/
def commit (s : MemoryDisplay) (r : Rect) (mode : UpdateMode) : MemoryDisplay :=
  if s.locked = 0 then s
  else
    let tar := if !r.valid then s.surf_rect else s.surf_rect.clip r
    { s with commit_requests := s.commit_requests ++ [⟨tar, mode⟩] }

/-- Select a layer buffer. -/
def getLayer (s : MemoryDisplay) : Layer → (Int → Int → RGBA)
  | Layer.Background => s.layer_bg
  | Layer.Presentation => s.layer_presentation

/-- Replace a layer buffer. -/
def setLayer (s : MemoryDisplay) (layer : Layer) (f : Int → Int → RGBA) : MemoryDisplay :=
  match layer with
  | Layer.Background => { s with layer_bg := f }
  | Layer.Presentation => { s with layer_presentation := f }

/-- MemoryDisplay::Impl::fill (display.cpp lines 248-261, via
get_target_pointer_and_clip_rect lines 192-207): abort when unlocked or
when the clip is empty, else store the premultiplied colour at every
pixel of the clipped rectangle. -/
def fill (s : MemoryDisplay) (layer : Layer) (c : RGBA) (r : Rect) : MemoryDisplay :=
  if s.locked = 0 then s
  else
    let cr := s.surf_rect.clip r
    if cr.width = 0 ∨ cr.height = 0 then s
    else
      let f := c.premultiply_alpha
      let buf2 := fun x y =>
        if cr.x0 ≤ x ∧ x < cr.x1 ∧ cr.y0 ≤ y ∧ y < cr.y1 then f
        else getLayer s layer x y
      setLayer s layer buf2

/-- MemoryDisplay::Impl::blit (display.cpp lines 209-237): abort when
unlocked or when the clip is empty; for every pixel of the clipped
rectangle with a positive mask byte, Write stores the colour scaled by
the mask alpha (premultiplied) and Erase zeroes the pixel.  The mask is
a function of the (row, column) offsets inside the clipped rectangle,
matching psrc[x] with psrc = mask + stride * (y - r.y0). -/
def blit (s : MemoryDisplay) (layer : Layer) (c : RGBA) (mask : Int → Int → Nat)
    (r : Rect) (mode : DrawMode) : MemoryDisplay :=
  if s.locked = 0 then s
  else
    let cr := s.surf_rect.clip r
    if cr.width = 0 ∨ cr.height = 0 then s
    else
      let buf2 := fun x y =>
        if cr.x0 ≤ x ∧ x < cr.x1 ∧ cr.y0 ≤ y ∧ y < cr.y1 then
          (if mask (y - cr.y0) (x - cr.x0) > 0 then
            (match mode with
             | DrawMode.Write =>
               (⟨c.r * (mask (y - cr.y0) (x - cr.x0)) / 255 % 256,
                 c.g * (mask (y - cr.y0) (x - cr.x0)) / 255 % 256,
                 c.b * (mask (y - cr.y0) (x - cr.x0)) / 255 % 256,
                 (mask (y - cr.y0) (x - cr.x0)) % 256⟩ : RGBA)
             | DrawMode.Erase => (⟨0, 0, 0, 0⟩ : RGBA))
          else getLayer s layer x y)
        else getLayer s layer x y
      setLayer s layer buf2

/-- The drawing operations of the claim: fills and blits on either
layer, and commit-request enqueueing, all inside one lock scope. -/
inductive DispOp where
  | fill (layer : Layer) (c : RGBA) (r : Rect)
  | blit (layer : Layer) (c : RGBA) (mask : Int → Int → Nat) (r : Rect) (mode : DrawMode)
  | commit (r : Rect) (mode : UpdateMode)

/-- Apply one display operation. -/
def applyDispOp (s : MemoryDisplay) : DispOp → MemoryDisplay
  | DispOp.fill layer c r => s.fill layer c r
  | DispOp.blit layer c mask r mode => s.blit layer c mask r mode
  | DispOp.commit r mode => s.commit r mode

/-- Apply a sequence of display operations. -/
def runDisp (s : MemoryDisplay) (ops : List DispOp) : MemoryDisplay :=
  ops.foldl applyDispOp s

/-- All uint8_t inputs of an operation are in range, as the C++ types
guarantee. -/
def DispOp.wf : DispOp → Prop
  | DispOp.fill _ c _ => c.wf
  | DispOp.blit _ c mask _ _ => c.wf ∧ ∀ i j, mask i j ≤ 255
  | DispOp.commit _ _ => True

/-- The buffer range invariants: every background pixel is a valid
uint8_t quadruple and every presentation pixel additionally holds
premultiplied alpha. -/
def buffers_wf (s : MemoryDisplay) : Prop :=
  (∀ x y, (s.layer_bg x y).wf) ∧
  (∀ x y, (s.layer_presentation x y).wf ∧ (s.layer_presentation x y).premultiplied)

end MemoryDisplay

/-- The renderer cell metadata (part_003 MatrixRenderer::Impl::Cell). -/
structure RCell where
  cell : Cell
  last_update : Nat
  operation_counter : Nat
  is_low_quality : Bool
  is_high_quality : Bool
  is_overdue : Bool
  is_dirty : Bool
deriving DecidableEq

/-- The default renderer metadata cell (part_003 lines 81-87). -/
def RCell.init : RCell := ⟨Cell.default, 0, 0, false, true, true, false⟩

/-- The MatrixRenderer::Impl state that the draw pass reads and writes:
the per-cell metadata grid, the renderer update bounds (0-based cell
coordinates) and the geometry.  The display, font, merger and
configuration are external to the pass; the rectangles draw_cell touches
are passed in as a function argument. -/
structure MatrixRenderer where
  cells : Int → Int → RCell
  update_bounds : Rect
  rows : Int
  cols : Int

namespace MatrixRenderer

/-- Base redraw timeout (part_003 line 332). -/
def redraw_timeout_high : Nat := 1000

/-- Tightened redraw timeout (part_003 line 331). -/
def redraw_timeout_low : Nat := 250

/-- Base operation counter threshold (part_003 line 334). -/
def update_counter_threshold_high : Nat := 2000

/-- Tightened operation counter threshold (part_003 line 333). -/
def update_counter_threshold_low : Nat := 1000

/-- The inner row scan of the adaptive threshold loop (part_003 lines
337-349): the counter threshold tightens whenever a cell exceeds the
current counter threshold; on the first cell exceeding the current
redraw timeout the timeout tightens and the row scan breaks. -/
def threshRow (cells : Int → Int → RCell) (y : Int) :
    List Int → Nat × Nat → Nat × Nat
  | [], tp => tp
  | x :: rest, (uct, rt) =>
    let uct2 := if (cells y x).operation_counter > uct then
        update_counter_threshold_low else uct
    if (cells y x).last_update > rt then (uct2, redraw_timeout_low)
    else threshRow cells y rest (uct2, rt)

/-- The commit mode of the draft pass (part_003 line 420). -/
def draftMode : UpdateMode := ⟨UpdateMode.Identity, UpdateMode.SourceMono⟩

/-- The commit mode of the promotion pass (part_003 line 461). -/
def promoteMode : UpdateMode := ⟨UpdateMode.Identity, UpdateMode.Partial⟩

/-- The state-marking prefix of MatrixRenderer::Impl::draw (part_003
lines 295-362): the optional redraw reset, the last_update aging, the
ingestion of the matrix commit result, the adaptive thresholds, and the
overdue marking.  No display call is issued here. -/
def draw_mark (st : MatrixRenderer) (redraw : Bool) (dt : Nat)
    (updates : List Point) : MatrixRenderer :=
  let cellsRedraw := fun y x =>
    if 0 ≤ y ∧ y < st.rows ∧ 0 ≤ x ∧ x < st.cols then RCell.init
    else st.cells y x
  let boundsRedraw := ((intRange 0 (st.rows - 1)).flatMap (fun y =>
    (intRange 0 (st.cols - 1)).map (fun x => Point.mk x y))).foldl
      (fun b p => b.growPoint p) st.update_bounds
  let st1 := if redraw then
      { st with cells := cellsRedraw, update_bounds := boundsRedraw }
    else st
  let cellsAged := fun (y x : Int) =>
    if 0 ≤ y ∧ y < st1.rows ∧ 0 ≤ x ∧ x < st1.cols then
      { (st1.cells y x) with last_update := (st1.cells y x).last_update + dt }
    else st1.cells y x
  let st2 := { st1 with cells := cellsAged }
  let st3 := updates.foldl (fun acc p =>
      if p.y ≤ acc.rows ∧ p.x ≤ acc.cols then
        let cells2 := fun (y x : Int) =>
          if y = p.y - 1 ∧ x = p.x - 1 then
            { (acc.cells y x) with is_dirty := true }
          else acc.cells y x
        { acc with cells := cells2,
                   update_bounds := acc.update_bounds.growPoint ⟨p.x - 1, p.y - 1⟩ }
      else acc) st2
  let tp : Nat × Nat := (intRange 0 (st3.rows - 1)).foldl (fun tp y =>
      threshRow st3.cells y (intRange 0 (st3.cols - 1)) tp)
      (update_counter_threshold_high, redraw_timeout_high)
  let st4 := ((intRange 0 (st3.rows - 1)).flatMap (fun y =>
      (intRange 0 (st3.cols - 1)).map (fun x => Point.mk x y))).foldl
    (fun (acc : MatrixRenderer) p =>
      let c := acc.cells p.y p.x
      if c.operation_counter ≥ tp.1 ∨ (c.is_low_quality ∧ c.last_update ≥ tp.2) then
        let cells2 := fun (y x : Int) =>
          if y = p.y ∧ x = p.x then
            { (acc.cells y x) with is_overdue := true }
          else acc.cells y x
        { acc with cells := cells2,
                   update_bounds := acc.update_bounds.growPoint p }
      else acc) st3
  st4

/-- The emitting suffix of MatrixRenderer::Impl::draw (part_003 lines
364-468), on the state prepared by draw_mark: cancel when the update
bounds are empty; otherwise bump every operation counter, run the draft
pass over the dirty cells (inserting the touched rectangles into a fresh
rectangle merger) and commit each merged rectangle with
UpdateMode(Identity, SourceMono), then run the promotion pass over the
overdue cells and commit each merged rectangle with
UpdateMode(Identity, Partial), and clear the update bounds.  The
returned list holds the display commit calls in issue order.
update_geometry and the draw_cell fills and blits issue no commits and
are not part of the list. -/
def draw_emit (st4 : MatrixRenderer) (matrix_cells : Int → Int → Cell)
    (draw_cell : Int → Int → Cell → Bool → Bool → Rect) :
    MatrixRenderer × List (Rect × UpdateMode) :=
  if !st4.update_bounds.valid then (st4, [])
  else
    let cellsCounted := fun (y x : Int) =>
      if 0 ≤ y ∧ y < st4.rows ∧ 0 ≤ x ∧ x < st4.cols then
        { (st4.cells y x) with
            operation_counter := (st4.cells y x).operation_counter + 1 }
      else st4.cells y x
    let st5 := { st4 with cells := cellsCounted }
    let pass1 := (Matrix.scanPoints st5.update_bounds).foldl
      (fun (acc : MatrixRenderer × List Rect) p =>
        let c := acc.1.cells p.y p.x
        if !c.is_dirty then acc
        else
          let cNew := matrix_cells p.y p.x
          let r1 := draw_cell p.y p.x c.cell true c.is_low_quality
          let r2 := draw_cell p.y p.x cNew false true
          let cells2 := fun (y x : Int) =>
            if y = p.y ∧ x = p.x then
              { cell := cNew, last_update := 0, operation_counter := 0,
                is_low_quality := true, is_high_quality := false,
                is_overdue := false, is_dirty := false }
            else acc.1.cells y x
          ({ acc.1 with cells := cells2 },
           RectangleMerger.insert acc.2 (r1.grow r2)))
      (st5, [])
    let commitsA := (RectangleMerger.merge pass1.2).map (fun r => (r, draftMode))
    let pass2 := (Matrix.scanPoints st5.update_bounds).foldl
      (fun (acc : MatrixRenderer × List Rect) p =>
        let c := acc.1.cells p.y p.x
        if !c.is_overdue then acc
        else
          let cNew := matrix_cells p.y p.x
          let r1 := draw_cell p.y p.x c.cell true c.is_low_quality
          let r2 := draw_cell p.y p.x cNew false false
          let cells2 := fun (y x : Int) =>
            if y = p.y ∧ x = p.x then
              { cell := cNew, last_update := 0, operation_counter := 0,
                is_low_quality := false, is_high_quality := true,
                is_overdue := false, is_dirty := false }
            else acc.1.cells y x
          ({ acc.1 with cells := cells2 },
           RectangleMerger.insert acc.2 (r1.grow r2)))
      (pass1.1, [])
    let commitsB := (RectangleMerger.merge pass2.2).map (fun r => (r, promoteMode))
    ({ pass2.1 with update_bounds := Rect.invalid }, commitsA ++ commitsB)

/-- MatrixRenderer::Impl::draw (part_003 lines 295-468): the marking
prefix followed by the emitting suffix. -/
def draw (st : MatrixRenderer) (redraw : Bool) (dt : Nat) (updates : List Point)
    (matrix_cells : Int → Int → Cell)
    (draw_cell : Int → Int → Cell → Bool → Bool → Rect) :
    MatrixRenderer × List (Rect × UpdateMode) :=
  draw_emit (draw_mark st redraw dt updates) matrix_cells draw_cell

/-- A concrete 1 x 2 renderer state whose first cell is dirty (drawn by
the draft pass) and whose second cell has an operation counter past the
threshold (promoted by the second pass); it exercises a draw call that
issues one commit from each pass. -/
def twoPassExample : MatrixRenderer :=
  { cells := fun y x =>
      if y = 0 ∧ x = 0 then { RCell.init with is_dirty := true, is_overdue := false }
      else if y = 0 ∧ x = 1 then
        { RCell.init with operation_counter := 3000, is_overdue := false }
      else RCell.init,
    update_bounds := ⟨0, 0, 0, 0⟩, rows := 1, cols := 2 }

end MatrixRenderer

/-- Reading a grid beside the updated entry is unchanged. -/
theorem Matrix.setCell_ne (g : Int → Int → Cell) (y x : Int) (c : Cell)
    (yy xx : Int) (h : ¬(yy = y ∧ xx = x)) :
    Matrix.setCell g y x c yy xx = g yy xx := if_neg h

/-- Reading a grid at the updated entry yields the new cell. -/
theorem Matrix.setCell_eq (g : Int → Int → Cell) (y x : Int) (c : Cell) :
    Matrix.setCell g y x c y x = c := if_pos ⟨rfl, rfl⟩

/-- intRange produces no duplicates. -/
theorem intRange_nodup (a b : Int) : (intRange a b).Nodup := by
  unfold intRange
  refine List.Nodup.map ?_ (List.nodup_range _)
  intro i j h
  dsimp only at h
  omega

/-- Distinct scan points differ in at least one coordinate: the scan order
of the commit loop visits each cell at most once. -/
theorem Matrix.scanPoints_pairwise (b : Rect) :
    (Matrix.scanPoints b).Pairwise (fun p q => ¬(p.y = q.y ∧ p.x = q.x)) := by
  have hnd : (Matrix.scanPoints b).Nodup := by
    unfold Matrix.scanPoints
    rw [List.nodup_flatMap]
    constructor
    · intro y hy
      refine (intRange_nodup b.x0 b.x1).map ?_
      intro u v h
      injection h with h1 h2
    · have h := intRange_nodup b.y0 b.y1
      refine List.Pairwise.imp ?_ h
      intro y z hyz p hp hq
      simp only [List.mem_map] at hp hq
      obtain ⟨u, _, hu⟩ := hp
      obtain ⟨v, _, hv⟩ := hq
      apply hyz
      have : y = p.y := by rw [← hu]
      have h2 : z = p.y := by rw [← hv]
      omega
  refine List.Pairwise.imp ?_ hnd
  intro p q hpq hc
  exact hpq (by cases p; cases q; simp_all)

/-- The commit scan appends exactly the updates of the cells, read from
the grids as they were before the scan, whose needs_update holds; this
uses that the scan visits each cell at most once, so the in-place dirty
reset and current-to-old copy of earlier iterations never affect a later
read. -/
theorem Matrix.commit_scan_foldl_upds (L : List Point)
    (hL : L.Pairwise (fun p q => ¬(p.y = q.y ∧ p.x = q.x)))
    (cells cells_old : Int → Int → Cell) (acc : List CellUpdate) :
    (L.foldl Matrix.commit_scan_step (cells, cells_old, acc)).2.2 =
      acc ++ L.filterMap (fun p =>
        if (cells (p.y - 1) (p.x - 1)).needs_update (cells_old (p.y - 1) (p.x - 1))
        then some ⟨p, cells (p.y - 1) (p.x - 1), cells_old (p.y - 1) (p.x - 1)⟩
        else none) := by
  induction L generalizing cells cells_old acc with
  | nil => simp
  | cons p L ih =>
    have hp := (List.pairwise_cons.mp hL).1
    have hL2 := (List.pairwise_cons.mp hL).2
    rw [List.foldl_cons, List.filterMap_cons]
    have hstep : Matrix.commit_scan_step (cells, cells_old, acc) p =
        (Matrix.setCell cells (p.y - 1) (p.x - 1)
          { cells (p.y - 1) (p.x - 1) with dirty := false },
         Matrix.setCell cells_old (p.y - 1) (p.x - 1)
          { cells (p.y - 1) (p.x - 1) with dirty := false },
         if (cells (p.y - 1) (p.x - 1)).needs_update (cells_old (p.y - 1) (p.x - 1))
         then acc ++ [⟨p, cells (p.y - 1) (p.x - 1), cells_old (p.y - 1) (p.x - 1)⟩]
         else acc) := rfl
    rw [hstep, ih hL2]
    have hcongr : ∀ q ∈ L,
        (if (Matrix.setCell cells (p.y - 1) (p.x - 1)
              { cells (p.y - 1) (p.x - 1) with dirty := false } (q.y - 1) (q.x - 1)).needs_update
            (Matrix.setCell cells_old (p.y - 1) (p.x - 1)
              { cells (p.y - 1) (p.x - 1) with dirty := false } (q.y - 1) (q.x - 1))
         then some (CellUpdate.mk q
            (Matrix.setCell cells (p.y - 1) (p.x - 1)
              { cells (p.y - 1) (p.x - 1) with dirty := false } (q.y - 1) (q.x - 1))
            (Matrix.setCell cells_old (p.y - 1) (p.x - 1)
              { cells (p.y - 1) (p.x - 1) with dirty := false } (q.y - 1) (q.x - 1)))
         else none) =
        (if (cells (q.y - 1) (q.x - 1)).needs_update (cells_old (q.y - 1) (q.x - 1))
         then some (CellUpdate.mk q (cells (q.y - 1) (q.x - 1)) (cells_old (q.y - 1) (q.x - 1)))
         else none) := by
      intro q hq
      have hkey : ¬(q.y - 1 = p.y - 1 ∧ q.x - 1 = p.x - 1) := by
        have := hp q hq
        omega
      rw [Matrix.setCell_ne _ _ _ _ _ _ hkey, Matrix.setCell_ne _ _ _ _ _ _ hkey]
    rw [List.filterMap_congr hcongr]
    by_cases hnu : (cells (p.y - 1) (p.x - 1)).needs_update (cells_old (p.y - 1) (p.x - 1))
    · simp [hnu]
    · simp [hnu]

/-- Every iteration of the commit scan writes cells with a cleared dirty
flag, so a cleared dirty flag at any grid entry is preserved by the
scan. -/
theorem Matrix.commit_scan_foldl_dirty_mono (L : List Point)
    (cells cells_old : Int → Int → Cell) (acc : List CellUpdate) (y x : Int)
    (h : (cells y x).dirty = false) :
    ((L.foldl Matrix.commit_scan_step (cells, cells_old, acc)).1 y x).dirty = false := by
  induction L generalizing cells cells_old acc with
  | nil => exact h
  | cons p L ih =>
    rw [List.foldl_cons]
    apply ih
    by_cases hkey : (y = p.y - 1 ∧ x = p.x - 1)
    · obtain ⟨h1, h2⟩ := hkey
      subst h1
      subst h2
      rw [Matrix.setCell_eq]
    · rw [Matrix.setCell_ne _ _ _ _ _ _ hkey]
      exact h

/-- Every scanned cell ends the commit scan with a cleared dirty flag. -/
theorem Matrix.commit_scan_foldl_dirty (L : List Point)
    (cells cells_old : Int → Int → Cell) (acc : List CellUpdate) (p : Point)
    (hp : p ∈ L) :
    ((L.foldl Matrix.commit_scan_step (cells, cells_old, acc)).1
      (p.y - 1) (p.x - 1)).dirty = false := by
  induction L generalizing cells cells_old acc with
  | nil => cases hp
  | cons q L ih =>
    rw [List.foldl_cons]
    rcases List.mem_cons.mp hp with hpq | hpL
    · subst hpq
      apply Matrix.commit_scan_foldl_dirty_mono
      rw [Matrix.setCell_eq]
    · exact ih _ _ _ hpL

/-- The cursor bookkeeping only touches the cell grid and the update
bounds. -/
theorem Matrix.commit_cursor_proj (m : Matrix) :
    (Matrix.commit_cursor m).pos = m.pos ∧
    (Matrix.commit_cursor m).cursor_visible = m.cursor_visible ∧
    (Matrix.commit_cursor m).cells_old = m.cells_old := by
  simp only [Matrix.commit_cursor, Matrix.extend_update_bounds]
  split
  · split
    · exact ⟨rfl, rfl, rfl⟩
    · exact ⟨rfl, rfl, rfl⟩
  · split
    · exact ⟨rfl, rfl, rfl⟩
    · exact ⟨rfl, rfl, rfl⟩

/-- The instrumented search matches the plain search on the projected
rectangles. -/
theorem RectangleMerger.searchMatchingS_fst (r : Rect) (l : List (Rect × List Rect)) :
    searchMatchingS r l = searchMatching r (l.map Prod.fst) := by
  induction l with
  | nil => rfl
  | cons s rest ih => simp [searchMatchingS, searchMatching, ih]

/-- A successful search returns an index whose rectangle satisfies the
merge condition. -/
theorem RectangleMerger.searchMatching_some (r : Rect) (l : List Rect) (i : Nat)
    (h : searchMatching r l = some i) :
    ∃ s, l.get? i = some s ∧ mergeCond r s = true := by
  induction l generalizing i with
  | nil => simp [searchMatching] at h
  | cons s rest ih =>
    unfold searchMatching at h
    cases hrest : searchMatching r rest with
    | some j =>
      rw [hrest] at h
      obtain ⟨t, ht, hc⟩ := ih j hrest
      cases h
      exact ⟨t, by simpa using ht, hc⟩
    | none =>
      rw [hrest] at h
      by_cases hc : mergeCond r s
      · simp [hc] at h
        exact ⟨s, by simp [← h], hc⟩
      · simp [hc] at h

/-- Truncating division agrees with Euclidean division on nonnegative
dividends (the areas arising in the merger are nonnegative). -/
theorem RectangleMerger.tdiv_four_eq_ediv (a : Int) (h : 0 ≤ a) : a.tdiv 4 = a / 4 := by
  unfold Int.tdiv
  cases a with
  | ofNat n => rfl
  | negSucc n => exact absurd h (by simp)

/-- C2, counterexample: with output_op = Identity and mask_op = TargetMono,
at (g_src, g_tar) = (0, 7) the implementation masks the pixel (the target
is a mid-tone) and outputs the target greyscale 7, while the claimed rule
has no TargetMono case and outputs the post-op source 0. -/
theorem C2_counterexample :
    epaper_emulation.update_grey ⟨UpdateMode.Identity, UpdateMode.TargetMono⟩ 0 7 = 7 ∧
    epaper_emulation.update_grey_claimed ⟨UpdateMode.Identity, UpdateMode.TargetMono⟩ 0 7 = 0 ∧
    (7 : Nat) ≠ 0 := by decide

/-- C2, amended: for every enumerated output operation and mask operation
and all 4-bit greyscale pairs, the e-paper update writes the target
greyscale exactly when an enabled mask condition fires - SourceMono with
the source (after Invert/ForceMono, before White) strictly between 0 and
15, TargetMono with the target strictly between 0 and 15, or Partial with
the target equal to the source after Invert/ForceMono - and otherwise
writes the source after the full output operation (White included, White
being applied only after the mask has been computed). -/
theorem C2_epaper_update_mask_semantics :
    ∀ oop ∈ [UpdateMode.Identity, UpdateMode.ForceMono, UpdateMode.Invert,
      UpdateMode.InvertAndForceMono, UpdateMode.White],
    ∀ mop ∈ [UpdateMode.Full, UpdateMode.SourceMono, UpdateMode.TargetMono,
      UpdateMode.SourceAndTargetMono, UpdateMode.Partial],
    ∀ gs < 16, ∀ gt < 16,
      epaper_emulation.update_grey ⟨oop, mop⟩ gs gt =
        (if epaper_emulation.mask_hits ⟨oop, mop⟩ gs gt then gt
         else epaper_emulation.apply_output_op oop gs) := by decide

/-- C2 witness: instantiating the amended theorem at output_op = White,
mask_op = SourceMono, g_src = 7, g_tar = 3 shows the mask is computed on
the pre-White source (7, a mid-tone), so the pixel is masked and keeps
the target value 3. -/
theorem C2_epaper_update_mask_semantics_witness :
    UpdateMode.White ∈ [UpdateMode.Identity, UpdateMode.ForceMono, UpdateMode.Invert,
      UpdateMode.InvertAndForceMono, UpdateMode.White] ∧
    UpdateMode.SourceMono ∈ [UpdateMode.Full, UpdateMode.SourceMono, UpdateMode.TargetMono,
      UpdateMode.SourceAndTargetMono, UpdateMode.Partial] ∧
    (7 : Nat) < 16 ∧ (3 : Nat) < 16 ∧
    epaper_emulation.update_grey ⟨UpdateMode.White, UpdateMode.SourceMono⟩ 7 3 =
      (if epaper_emulation.mask_hits ⟨UpdateMode.White, UpdateMode.SourceMono⟩ 7 3 then 3
       else epaper_emulation.apply_output_op UpdateMode.White 7) :=
  ⟨by decide, by decide, by decide, by decide,
    C2_epaper_update_mask_semantics UpdateMode.White (by decide) UpdateMode.SourceMono
      (by decide) 7 (by decide) 3 (by decide)⟩

/-- C10: for every 4-bit greyscale value g, converting g to RGBA through
the 16-level ramp and back through the luminance formula is the
identity. -/
theorem C10_greyscale_roundtrip :
    ∀ g < 16, epaper_emulation.rgba_to_greyscale (epaper_emulation.greyscale_to_rgba g) = g := by
  decide


/-- C3, counterexample: inserting (0,0,3,1), (4,0,8,1) and (12,0,13,1)
merges all three into the single output rectangle (0,0,13,1) of area 13,
whose sources have total area 3 + 4 + 1 = 8, and 8 < (3/4) * 13; the
transitive sum-of-source-areas bound claimed for merge() outputs fails.
(The last merge is admitted because the implementation compares against
the truncated (3 * 13) / 4 = 9.) -/
theorem C3_counterexample :
    RectangleMerger.runS [⟨0, 0, 3, 1⟩, ⟨4, 0, 8, 1⟩, ⟨12, 0, 13, 1⟩] =
      [(⟨0, 0, 13, 1⟩, [⟨0, 0, 3, 1⟩, ⟨4, 0, 8, 1⟩, ⟨12, 0, 13, 1⟩])] ∧
    ¬ (4 * RectangleMerger.sumArea [⟨0, 0, 3, 1⟩, ⟨4, 0, 8, 1⟩, ⟨12, 0, 13, 1⟩] ≥
        3 * Rect.area ⟨0, 0, 13, 1⟩) := by
  exact ⟨by decide, by decide⟩

/-- C3, amended: a single pairwise merge of r into an existing rectangle s
happens exactly when area(r) + area(s) >= (3 * area(grow(r, s))) / 4 in
truncating integer division - equivalently, for nonnegative bounding-box
area, 4 * (area(r) + area(s)) + 3 >= 3 * area(grow(r, s)); insert either
performs such a merge with the most recently inserted matching rectangle
or appends r unchanged.  The 3/4 coverage bound therefore holds for each
individual pairwise merge step (up to the rounding of the truncated
division), but not transitively for the final output rectangles. -/
theorem C3_pairwise_merge_rule :
    (∀ (l : List Rect) (r : Rect),
      (∃ i s, RectangleMerger.searchMatching r l = some i ∧ l.get? i = some s ∧
        RectangleMerger.mergeCond r s = true ∧
        RectangleMerger.insert l r = l.set i (s.grow r)) ∨
      (RectangleMerger.searchMatching r l = none ∧
        RectangleMerger.insert l r = l ++ [r])) ∧
    (∀ r s : Rect, 0 ≤ Rect.area (r.grow s) →
      (RectangleMerger.mergeCond r s = true ↔
        4 * (Rect.area r + Rect.area s) + 3 ≥ 3 * Rect.area (r.grow s))) := by
  constructor
  · intro l r
    cases h : RectangleMerger.searchMatching r l with
    | none =>
      right
      exact ⟨rfl, by simp [RectangleMerger.insert, h]⟩
    | some i =>
      left
      obtain ⟨s, hs, hc⟩ := RectangleMerger.searchMatching_some r l i h
      refine ⟨i, s, rfl, hs, hc, ?_⟩
      have hge : l[i]? = some s := by
        rw [← List.get?_eq_getElem?]
        exact hs
      simp [RectangleMerger.insert, h, List.getD_eq_getElem?_getD, hge]
  · intro r s h
    have h3 : 0 ≤ 3 * Rect.area (r.grow s) := by linarith
    unfold RectangleMerger.mergeCond
    rw [RectangleMerger.tdiv_four_eq_ediv _ h3, decide_eq_true_iff]
    constructor
    · intro hge
      omega
    · intro hge
      omega

/-- C3 witness: instantiating the pairwise rule with the singleton list
holding (0,0,8,1) and the inserted rectangle (12,0,13,1) shows the merge
into (0,0,13,1) is performed, and the bound form of the condition holds
there (9 + 9 * 4 / 4 rounding: 4 * 9 + 3 = 39 >= 39). -/
theorem C3_pairwise_merge_rule_witness :
    ((∃ i s, RectangleMerger.searchMatching ⟨12, 0, 13, 1⟩ [⟨0, 0, 8, 1⟩] = some i ∧
        [(⟨0, 0, 8, 1⟩ : Rect)].get? i = some s ∧
        RectangleMerger.mergeCond ⟨12, 0, 13, 1⟩ s = true ∧
        RectangleMerger.insert [⟨0, 0, 8, 1⟩] ⟨12, 0, 13, 1⟩ =
          [(⟨0, 0, 8, 1⟩ : Rect)].set i (s.grow ⟨12, 0, 13, 1⟩)) ∨
      (RectangleMerger.searchMatching ⟨12, 0, 13, 1⟩ [⟨0, 0, 8, 1⟩] = none ∧
        RectangleMerger.insert [⟨0, 0, 8, 1⟩] ⟨12, 0, 13, 1⟩ =
          [⟨0, 0, 8, 1⟩] ++ [⟨12, 0, 13, 1⟩])) ∧
    (0 ≤ Rect.area (Rect.grow ⟨12, 0, 13, 1⟩ ⟨0, 0, 8, 1⟩) ∧
      (RectangleMerger.mergeCond ⟨12, 0, 13, 1⟩ ⟨0, 0, 8, 1⟩ = true ↔
        4 * (Rect.area ⟨12, 0, 13, 1⟩ + Rect.area ⟨0, 0, 8, 1⟩) + 3 ≥
          3 * Rect.area (Rect.grow ⟨12, 0, 13, 1⟩ ⟨0, 0, 8, 1⟩))) :=
  ⟨C3_pairwise_merge_rule.1 [⟨0, 0, 8, 1⟩] ⟨12, 0, 13, 1⟩,
    by decide,
    C3_pairwise_merge_rule.2 ⟨12, 0, 13, 1⟩ ⟨0, 0, 8, 1⟩ (by decide)⟩

/-- C1: after any sequence of set/write/fill/scroll operations on a fresh
matrix, the update list produced by commit is exactly the list, in scan
order, of the cells inside the update bounds (after cursor-flag
bookkeeping) whose needs_update against the old buffer holds, and no
others; moreover needs_update is false whenever the dirty flag of the
cell is clear. -/
theorem C1_matrix_commit_exact (rows cols : Int) (ops : List Matrix.Op) :
    (Matrix.commit (Matrix.run (Matrix.init rows cols) ops)).1 =
      Matrix.commit_spec (Matrix.commit_cursor (Matrix.run (Matrix.init rows cols) ops)) ∧
    (∀ c old : Cell, c.dirty = false → c.needs_update old = false) := by
  constructor
  · unfold Matrix.commit Matrix.commit_spec
    dsimp only
    rw [Matrix.commit_scan_foldl_upds _ (Matrix.scanPoints_pairwise _)]
    simp
  · intro c old h
    unfold Cell.needs_update
    rw [h]
    rfl

/-- C1 witness: the exactness of commit evaluated after a single set on a
1-row, 2-column matrix, and the dirty-flag clause at a clean default
cell. -/
theorem C1_matrix_commit_exact_witness :
    (Matrix.commit (Matrix.run (Matrix.init 1 2) [Matrix.Op.set 65 Style.default ⟨1, 1⟩])).1 =
      Matrix.commit_spec (Matrix.commit_cursor
        (Matrix.run (Matrix.init 1 2) [Matrix.Op.set 65 Style.default ⟨1, 1⟩])) ∧
    ({ Cell.default with dirty := false } : Cell).dirty = false ∧
    Cell.needs_update { Cell.default with dirty := false } Cell.default = false :=
  ⟨(C1_matrix_commit_exact 1 2 [Matrix.Op.set 65 Style.default ⟨1, 1⟩]).1,
    rfl,
    (C1_matrix_commit_exact 1 2 [Matrix.Op.set 65 Style.default ⟨1, 1⟩]).2
      { Cell.default with dirty := false } Cell.default rfl⟩

/-- C6, counterexample: committing a freshly constructed 1 x 1 matrix (the
cursor bookkeeping extends the bounds to the cursor cell) leaves
update_bounds at (1,1,1,1); commit never resets it to the invalid
sentinel rectangle. -/
theorem C6_counterexample :
    ((Matrix.init 1 1).commit).2.update_bounds = ⟨1, 1, 1, 1⟩ ∧
    (⟨1, 1, 1, 1⟩ : Rect) ≠ Rect.invalid :=
  ⟨by decide, by decide⟩

/-- C6, amended: after commit returns, pos_old and cursor_visible_old
hold the cursor position and visibility at commit time, and the dirty
flags of all scanned cells are cleared, but update_bounds is NOT reset:
it keeps the value it had after cursor bookkeeping. -/
theorem C6_commit_post_state (m : Matrix) :
    (Matrix.commit m).2.pos_old = m.pos ∧
    (Matrix.commit m).2.cursor_visible_old = m.cursor_visible ∧
    (Matrix.commit m).2.update_bounds = (Matrix.commit_cursor m).update_bounds ∧
    ∀ p ∈ Matrix.scanPoints (Matrix.commit_cursor m).update_bounds,
      ((Matrix.commit m).2.cells (p.y - 1) (p.x - 1)).dirty = false := by
  obtain ⟨h1, h2, h3⟩ := Matrix.commit_cursor_proj m
  refine ⟨h1, h2, rfl, ?_⟩
  intro p hp
  exact Matrix.commit_scan_foldl_dirty _ _ _ _ _ hp

/-- C6 witness: the dirty flag of the committed cursor cell of a fresh
1 x 1 matrix is cleared. -/
theorem C6_commit_post_state_witness :
    (⟨1, 1⟩ : Point) ∈ Matrix.scanPoints (Matrix.commit_cursor (Matrix.init 1 1)).update_bounds ∧
    (((Matrix.init 1 1).commit).2.cells ((1 : Int) - 1) ((1 : Int) - 1)).dirty = false :=
  ⟨by decide, (C6_commit_post_state (Matrix.init 1 1)).2.2.2 ⟨1, 1⟩ (by decide)⟩

/-- C8: set at an invalid point is a silent no-op (the state is returned
unchanged); at a valid point it is a no-op when the stored glyph and
style already match, and otherwise replaces the cell, marks it dirty, and
extends the update bounds by the point, leaving the old buffer, cursor
and size untouched. -/
theorem C8_matrix_set (m : Matrix) (glyph : Nat) (style : Style) (pt : Point) :
    (m.valid pt = false → m.set glyph style pt = m) ∧
    (m.valid pt = true →
      ((glyph = (m.cells (pt.y - 1) (pt.x - 1)).glyph ∧
        style = (m.cells (pt.y - 1) (pt.x - 1)).style) →
          m.set glyph style pt = m) ∧
      (¬(glyph = (m.cells (pt.y - 1) (pt.x - 1)).glyph ∧
         style = (m.cells (pt.y - 1) (pt.x - 1)).style) →
        (m.set glyph style pt).cells =
          Matrix.setCell m.cells (pt.y - 1) (pt.x - 1)
            { m.cells (pt.y - 1) (pt.x - 1) with
                glyph := glyph, style := style, dirty := true } ∧
        (m.set glyph style pt).update_bounds = m.update_bounds.growPoint pt ∧
        (m.set glyph style pt).cells_old = m.cells_old ∧
        (m.set glyph style pt).pos = m.pos ∧
        (m.set glyph style pt).size = m.size)) := by
  refine ⟨?_, ?_⟩
  · intro h
    unfold Matrix.set
    rw [h]
    rfl
  · intro h
    constructor
    · intro hsame
      unfold Matrix.set
      rw [h]
      simp [← hsame.1, ← hsame.2]
    · intro hdiff
      have hcond : (decide (glyph ≠ (m.cells (pt.y - 1) (pt.x - 1)).glyph) ||
          decide (style ≠ (m.cells (pt.y - 1) (pt.x - 1)).style)) = true := by
        simp only [Bool.or_eq_true, decide_eq_true_iff]
        tauto
      unfold Matrix.set
      rw [h]
      simp only [Bool.not_true, Bool.false_eq_true, if_false, hcond, if_true]
      exact ⟨rfl, rfl, rfl, rfl, rfl⟩

/-- C8 witness: on a fresh 1 x 1 matrix, setting the out-of-range point
(5, 5) is a no-op, and setting glyph 65 at the valid point (1, 1)
differs from the stored blank cell and extends the update bounds. -/
theorem C8_matrix_set_witness :
    ((Matrix.init 1 1).valid ⟨5, 5⟩ = false ∧
      (Matrix.init 1 1).set 65 Style.default ⟨5, 5⟩ = Matrix.init 1 1) ∧
    ((Matrix.init 1 1).valid ⟨1, 1⟩ = true ∧
      ¬(65 = ((Matrix.init 1 1).cells ((1 : Int) - 1) ((1 : Int) - 1)).glyph ∧
        Style.default = ((Matrix.init 1 1).cells ((1 : Int) - 1) ((1 : Int) - 1)).style) ∧
      ((Matrix.init 1 1).set 65 Style.default ⟨1, 1⟩).update_bounds =
        (Matrix.init 1 1).update_bounds.growPoint ⟨1, 1⟩) :=
  ⟨⟨by decide, (C8_matrix_set (Matrix.init 1 1) 65 Style.default ⟨5, 5⟩).1 (by decide)⟩,
   ⟨by decide, by decide,
    ((((C8_matrix_set (Matrix.init 1 1) 65 Style.default ⟨1, 1⟩).2 (by decide)).2
      (by decide)).2).1⟩⟩

/-- C9: a negative scroll does not move any cell contents, because the
row loop condition y_tar <= y1 is false at the first iteration when the
iteration direction is downward; at rows = 2, cols = 1 with glyph 65
stored at (1, 1), scroll(-1) leaves row 1 holding 65 and row 2 blank,
while the claim expects row 2 to receive the old row 1 and row 1 to be
blanked.  The cursor bookkeeping (pos_old.y increases by 1) and the
full-screen update bounds are still applied. -/
theorem C9_scroll_negative_shift_noop :
    ((((Matrix.init 2 1).set 65 Style.default ⟨1, 1⟩).scroll (-1)).cells 1 0).glyph = 0 ∧
    ((((Matrix.init 2 1).set 65 Style.default ⟨1, 1⟩).scroll (-1)).cells 0 0).glyph = 65 ∧
    (((Matrix.init 2 1).set 65 Style.default ⟨1, 1⟩).scroll (-1)).pos_old = ⟨1, 2⟩ ∧
    (((Matrix.init 2 1).set 65 Style.default ⟨1, 1⟩).scroll (-1)).update_bounds = ⟨1, 1, 1, 2⟩ :=
  ⟨by decide, by decide, by decide, by decide⟩

/-- In a concatenation of two runs whose second components are constantly
two distinct modes, any element carrying the first mode sits at a
strictly smaller index than any element carrying the second mode. -/
theorem append_mode_lt {A B : List (Rect × UpdateMode)} {mA mB : UpdateMode}
    (hA : ∀ p ∈ A, p.2 = mA) (hB : ∀ p ∈ B, p.2 = mB) (hne : mA ≠ mB)
    (i j : Nat) (a b : Rect × UpdateMode)
    (hi : (A ++ B)[i]? = some a) (ha : a.2 = mA)
    (hj : (A ++ B)[j]? = some b) (hb : b.2 = mB) : i < j := by
  have hiA : i < A.length := by
    by_contra hiB
    push_neg at hiB
    rw [List.getElem?_append_right hiB] at hi
    have hmem : a ∈ B := List.getElem?_mem hi
    exact hne (ha ▸ hB a hmem)
  have hjA : A.length ≤ j := by
    by_contra hjB
    push_neg at hjB
    rw [List.getElem?_append_left hjB] at hj
    have hmem : b ∈ A := List.getElem?_mem hj
    exact hne ((hA b hmem) ▸ hb.symm ▸ rfl)
  omega

/-- The commit list of the emitting half of draw splits into a prefix of
draft-mode commits followed by promotion-mode commits. -/
theorem MatrixRenderer.draw_emit_shape (st4 : MatrixRenderer)
    (matrix_cells : Int → Int → Cell)
    (draw_cell : Int → Int → Cell → Bool → Bool → Rect) :
    ∃ A B, (MatrixRenderer.draw_emit st4 matrix_cells draw_cell).2 = A ++ B ∧
      (∀ p ∈ A, p.2 = MatrixRenderer.draftMode) ∧
      (∀ p ∈ B, p.2 = MatrixRenderer.promoteMode) := by
  unfold MatrixRenderer.draw_emit
  dsimp only
  split
  · exact ⟨[], [], rfl, by simp, by simp⟩
  · refine ⟨_, _, rfl, ?_, ?_⟩
    · intro p hp
      obtain ⟨r, _, hr⟩ := List.mem_map.mp hp
      rw [← hr]
    · intro p hp
      obtain ⟨r, _, hr⟩ := List.mem_map.mp hp
      rw [← hr]

/-- C5: within one MatrixRenderer draw call, every commit issued with
UpdateMode(Identity, SourceMono) - a Pass A draft commit - is enqueued
strictly before any commit issued with UpdateMode(Identity, Partial) -
a Pass B promotion commit. -/
theorem C5_draw_pass_order (st : MatrixRenderer) (redraw : Bool) (dt : Nat)
    (updates : List Point) (matrix_cells : Int → Int → Cell)
    (draw_cell : Int → Int → Cell → Bool → Bool → Rect)
    (i j : Nat) (a b : Rect × UpdateMode)
    (hi : (MatrixRenderer.draw st redraw dt updates matrix_cells draw_cell).2[i]? = some a)
    (ha : a.2 = MatrixRenderer.draftMode)
    (hj : (MatrixRenderer.draw st redraw dt updates matrix_cells draw_cell).2[j]? = some b)
    (hb : b.2 = MatrixRenderer.promoteMode) : i < j := by
  obtain ⟨A, B, hAB, hA, hB⟩ :=
    MatrixRenderer.draw_emit_shape (MatrixRenderer.draw_mark st redraw dt updates)
      matrix_cells draw_cell
  rw [MatrixRenderer.draw] at hi hj
  rw [hAB] at hi hj
  exact append_mode_lt hA hB (by decide) i j a b hi ha hj hb

/-- C5 witness: on the two-pass example state the draw call issues
exactly one draft commit followed by one promotion commit, and the
theorem places the draft commit strictly first. -/
theorem C5_draw_pass_order_witness :
    (MatrixRenderer.draw MatrixRenderer.twoPassExample false 0 []
      (fun _ _ => Cell.default) (fun _ _ _ _ _ => ⟨0, 0, 8, 16⟩)).2[0]? =
        some (⟨0, 0, 8, 16⟩, MatrixRenderer.draftMode) ∧
    ((⟨0, 0, 8, 16⟩ : Rect), MatrixRenderer.draftMode).2 = MatrixRenderer.draftMode ∧
    (MatrixRenderer.draw MatrixRenderer.twoPassExample false 0 []
      (fun _ _ => Cell.default) (fun _ _ _ _ _ => ⟨0, 0, 8, 16⟩)).2[1]? =
        some (⟨0, 0, 8, 16⟩, MatrixRenderer.promoteMode) ∧
    ((⟨0, 0, 8, 16⟩ : Rect), MatrixRenderer.promoteMode).2 = MatrixRenderer.promoteMode ∧
    (0 : Nat) < 1 :=
  ⟨by decide, rfl, by decide, rfl,
    C5_draw_pass_order MatrixRenderer.twoPassExample false 0 []
      (fun _ _ => Cell.default) (fun _ _ _ _ _ => ⟨0, 0, 8, 16⟩) 0 1
      (⟨0, 0, 8, 16⟩, MatrixRenderer.draftMode)
      (⟨0, 0, 8, 16⟩, MatrixRenderer.promoteMode)
      (by decide) rfl (by decide) rfl⟩

/-- Scaling a byte-bounded value by a factor over 255 never exceeds the
factor. -/
theorem mul_div255_le (r a : Nat) (hr : r ≤ 255) : r * a / 255 ≤ a := by
  have h1 : r * a ≤ 255 * a := Nat.mul_le_mul_right a hr
  have h2 : r * a / 255 ≤ 255 * a / 255 := Nat.div_le_div_right h1
  simpa using h2

/-- premultiply_alpha of an in-range colour yields an in-range,
premultiplied pixel, and the uint8_t narrowing is the identity. -/
theorem RGBA.premultiply_alpha_ok (c : RGBA) (h : c.wf) :
    (c.premultiply_alpha).wf ∧ (c.premultiply_alpha).premultiplied := by
  obtain ⟨hr, hg, hb, ha⟩ := h
  have h1 := mul_div255_le c.r c.a hr
  have h2 := mul_div255_le c.g c.a hg
  have h3 := mul_div255_le c.b c.a hb
  have e1 : c.r * c.a / 255 % 256 = c.r * c.a / 255 := Nat.mod_eq_of_lt (by omega)
  have e2 : c.g * c.a / 255 % 256 = c.g * c.a / 255 := Nat.mod_eq_of_lt (by omega)
  have e3 : c.b * c.a / 255 % 256 = c.b * c.a / 255 := Nat.mod_eq_of_lt (by omega)
  unfold RGBA.premultiply_alpha RGBA.wf RGBA.premultiplied
  dsimp only
  rw [e1, e2, e3]
  omega

/-- The pixel a Write-mode blit stores is in range and premultiplied. -/
theorem blit_write_pixel_ok (c : RGBA) (hc : c.wf) (a : Nat) (ha : a ≤ 255) :
    (RGBA.mk (c.r * a / 255 % 256) (c.g * a / 255 % 256) (c.b * a / 255 % 256) (a % 256)).wf ∧
    (RGBA.mk (c.r * a / 255 % 256) (c.g * a / 255 % 256) (c.b * a / 255 % 256) (a % 256)).premultiplied := by
  obtain ⟨hr, hg, hb, _⟩ := hc
  have h1 := mul_div255_le c.r a hr
  have h2 := mul_div255_le c.g a hg
  have h3 := mul_div255_le c.b a hb
  have e1 : c.r * a / 255 % 256 = c.r * a / 255 := Nat.mod_eq_of_lt (by omega)
  have e2 : c.g * a / 255 % 256 = c.g * a / 255 := Nat.mod_eq_of_lt (by omega)
  have e3 : c.b * a / 255 % 256 = c.b * a / 255 := Nat.mod_eq_of_lt (by omega)
  have e4 : a % 256 = a := Nat.mod_eq_of_lt (by omega)
  unfold RGBA.wf RGBA.premultiplied
  dsimp only
  rw [e1, e2, e3, e4]
  omega

/-- Replacing the background layer with in-range pixels preserves the
buffer invariants. -/
theorem MemoryDisplay.buffers_wf_set_bg (s : MemoryDisplay) (f : Int → Int → RGBA)
    (hs : s.buffers_wf) (hf : ∀ x y, (f x y).wf) :
    MemoryDisplay.buffers_wf { s with layer_bg := f } := by
  exact ⟨hf, hs.2⟩

/-- Replacing the presentation layer with in-range premultiplied pixels
preserves the buffer invariants. -/
theorem MemoryDisplay.buffers_wf_set_pr (s : MemoryDisplay) (f : Int → Int → RGBA)
    (hs : s.buffers_wf) (hf : ∀ x y, (f x y).wf ∧ (f x y).premultiplied) :
    MemoryDisplay.buffers_wf { s with layer_presentation := f } := by
  exact ⟨hs.1, hf⟩

/-- fill preserves the buffer invariants. -/
theorem MemoryDisplay.buffers_wf_fill (s : MemoryDisplay) (layer : Layer) (c : RGBA)
    (r : Rect) (hc : c.wf) (hs : s.buffers_wf) :
    MemoryDisplay.buffers_wf (s.fill layer c r) := by
  unfold MemoryDisplay.fill
  split
  · exact hs
  · dsimp only
    split
    · exact hs
    · cases layer with
      | Background =>
        apply MemoryDisplay.buffers_wf_set_bg s _ hs
        intro x y
        dsimp only
        split
        · exact (RGBA.premultiply_alpha_ok c hc).1
        · exact hs.1 x y
      | Presentation =>
        apply MemoryDisplay.buffers_wf_set_pr s _ hs
        intro x y
        dsimp only
        split
        · exact RGBA.premultiply_alpha_ok c hc
        · exact hs.2 x y

/-- blit preserves the buffer invariants. -/
theorem MemoryDisplay.buffers_wf_blit (s : MemoryDisplay) (layer : Layer) (c : RGBA)
    (mask : Int → Int → Nat) (r : Rect) (mode : DrawMode)
    (hc : c.wf) (hm : ∀ i j, mask i j ≤ 255) (hs : s.buffers_wf) :
    MemoryDisplay.buffers_wf (s.blit layer c mask r mode) := by
  unfold MemoryDisplay.blit
  split
  · exact hs
  · dsimp only
    split
    · exact hs
    · cases layer with
      | Background =>
        apply MemoryDisplay.buffers_wf_set_bg s _ hs
        intro x y
        dsimp only
        split
        · split
          · cases mode with
            | Write => exact (blit_write_pixel_ok c hc _ (hm _ _)).1
            | Erase =>
              exact show (RGBA.mk 0 0 0 0).wf by decide
          · exact hs.1 x y
        · exact hs.1 x y
      | Presentation =>
        apply MemoryDisplay.buffers_wf_set_pr s _ hs
        intro x y
        dsimp only
        split
        · split
          · cases mode with
            | Write => exact blit_write_pixel_ok c hc _ (hm _ _)
            | Erase =>
              exact show (RGBA.mk 0 0 0 0).wf ∧ (RGBA.mk 0 0 0 0).premultiplied by decide
          · exact hs.2 x y
        · exact hs.2 x y

/-- commit does not touch the pixel buffers. -/
theorem MemoryDisplay.buffers_wf_commit (s : MemoryDisplay) (r : Rect) (mode : UpdateMode)
    (hs : s.buffers_wf) : MemoryDisplay.buffers_wf (s.commit r mode) := by
  unfold MemoryDisplay.commit
  split
  · exact hs
  · exact hs

/-- Every well-formed drawing operation preserves the buffer
invariants. -/
theorem MemoryDisplay.buffers_wf_applyDispOp (s : MemoryDisplay) (op : MemoryDisplay.DispOp)
    (hop : op.wf) (hs : s.buffers_wf) :
    MemoryDisplay.buffers_wf (MemoryDisplay.applyDispOp s op) := by
  cases op with
  | fill layer c r => exact MemoryDisplay.buffers_wf_fill s layer c r hop hs
  | blit layer c mask r mode => exact MemoryDisplay.buffers_wf_blit s layer c mask r mode hop.1 hop.2 hs
  | commit r mode => exact MemoryDisplay.buffers_wf_commit s r mode hs

/-- A sequence of well-formed drawing operations preserves the buffer
invariants. -/
theorem MemoryDisplay.runDisp_buffers_wf (ops : List MemoryDisplay.DispOp) (s : MemoryDisplay)
    (hs : s.buffers_wf) (hops : ∀ op ∈ ops, op.wf) :
    MemoryDisplay.buffers_wf (MemoryDisplay.runDisp s ops) := by
  induction ops generalizing s with
  | nil => exact hs
  | cons op rest ih =>
    rw [MemoryDisplay.runDisp, List.foldl_cons]
    exact ih _ (MemoryDisplay.buffers_wf_applyDispOp s op (hops op (by simp)) hs)
      (fun o ho => hops o (by simp [ho]))

/-- fill leaves the lock counter and the commit queue untouched. -/
theorem MemoryDisplay.fill_proj (s : MemoryDisplay) (layer : Layer) (c : RGBA) (r : Rect) :
    (s.fill layer c r).locked = s.locked ∧
    (s.fill layer c r).commit_requests = s.commit_requests := by
  unfold MemoryDisplay.fill
  split
  · exact ⟨rfl, rfl⟩
  · dsimp only
    split
    · exact ⟨rfl, rfl⟩
    · cases layer <;> exact ⟨rfl, rfl⟩

/-- blit leaves the lock counter and the commit queue untouched. -/
theorem MemoryDisplay.blit_proj (s : MemoryDisplay) (layer : Layer) (c : RGBA)
    (mask : Int → Int → Nat) (r : Rect) (mode : DrawMode) :
    (s.blit layer c mask r mode).locked = s.locked ∧
    (s.blit layer c mask r mode).commit_requests = s.commit_requests := by
  unfold MemoryDisplay.blit
  split
  · exact ⟨rfl, rfl⟩
  · dsimp only
    split
    · exact ⟨rfl, rfl⟩
    · cases layer <;> exact ⟨rfl, rfl⟩

/-- commit leaves the lock counter untouched. -/
theorem MemoryDisplay.commit_locked (s : MemoryDisplay) (r : Rect) (mode : UpdateMode) :
    (s.commit r mode).locked = s.locked := by
  unfold MemoryDisplay.commit
  split
  · rfl
  · rfl

/-- No drawing operation changes the lock counter. -/
theorem MemoryDisplay.applyDispOp_locked (s : MemoryDisplay) (op : MemoryDisplay.DispOp) :
    (MemoryDisplay.applyDispOp s op).locked = s.locked := by
  cases op with
  | fill layer c r => exact (MemoryDisplay.fill_proj s layer c r).1
  | blit layer c mask r mode => exact (MemoryDisplay.blit_proj s layer c mask r mode).1
  | commit r mode => exact MemoryDisplay.commit_locked s r mode

/-- Drawing operation sequences leave the lock counter unchanged. -/
theorem MemoryDisplay.runDisp_locked (ops : List MemoryDisplay.DispOp) (s : MemoryDisplay) :
    (MemoryDisplay.runDisp s ops).locked = s.locked := by
  induction ops generalizing s with
  | nil => rfl
  | cons op rest ih =>
    rw [MemoryDisplay.runDisp, List.foldl_cons]
    rw [show List.foldl MemoryDisplay.applyDispOp (MemoryDisplay.applyDispOp s op) rest =
      MemoryDisplay.runDisp (MemoryDisplay.applyDispOp s op) rest from rfl]
    rw [ih]
    exact MemoryDisplay.applyDispOp_locked s op

/-- lock increments the lock counter and leaves the pixel layers
untouched. -/
theorem MemoryDisplay.lock_proj (s : MemoryDisplay) (dl : Rect) :
    (MemoryDisplay.lock s dl).1.locked = s.locked + 1 ∧
    (MemoryDisplay.lock s dl).1.layer_bg = s.layer_bg ∧
    (MemoryDisplay.lock s dl).1.layer_presentation = s.layer_presentation := by
  unfold MemoryDisplay.lock MemoryDisplay.resize
  dsimp only
  split
  · split
    · split
      · exact ⟨rfl, rfl, rfl⟩
      · exact ⟨rfl, rfl, rfl⟩
    · exact ⟨rfl, rfl, rfl⟩
  · exact ⟨rfl, rfl, rfl⟩

/-- Once the composite holds the blend of the two layers at a pixel,
further compose calls keep it there (compose writes exactly that blend
and never touches the layers). -/
theorem MemoryDisplay.foldl_compose_stable (reqs : List CommitRequest)
    (s : MemoryDisplay) (x y : Int)
    (h : s.composite x y = MemoryDisplay.compose_pixel (s.layer_bg x y) (s.layer_presentation x y)) :
    (reqs.foldl (fun acc req => MemoryDisplay.compose acc req.r) s).composite x y =
      MemoryDisplay.compose_pixel (s.layer_bg x y) (s.layer_presentation x y) := by
  induction reqs generalizing s with
  | nil => exact h
  | cons q rest ih =>
    rw [List.foldl_cons]
    have h2 : (MemoryDisplay.compose s q.r).composite x y =
        MemoryDisplay.compose_pixel ((MemoryDisplay.compose s q.r).layer_bg x y)
          ((MemoryDisplay.compose s q.r).layer_presentation x y) := by
      show (MemoryDisplay.compose s q.r).composite x y =
        MemoryDisplay.compose_pixel (s.layer_bg x y) (s.layer_presentation x y)
      unfold MemoryDisplay.compose
      dsimp only
      split
      · rfl
      · exact h
    exact ih (MemoryDisplay.compose s q.r) h2

/-- After composing a list of requests, every pixel covered by at least
one request holds the blend of the two layers. -/
theorem MemoryDisplay.foldl_compose_covered (reqs : List CommitRequest)
    (s : MemoryDisplay) (x y : Int)
    (hcov : ∃ req ∈ reqs, req.r.x0 ≤ x ∧ x < req.r.x1 ∧ req.r.y0 ≤ y ∧ y < req.r.y1) :
    (reqs.foldl (fun acc req => MemoryDisplay.compose acc req.r) s).composite x y =
      MemoryDisplay.compose_pixel (s.layer_bg x y) (s.layer_presentation x y) := by
  induction reqs generalizing s with
  | nil =>
    obtain ⟨req, hmem, _⟩ := hcov
    cases hmem
  | cons q rest ih =>
    rw [List.foldl_cons]
    obtain ⟨req, hmem, hin⟩ := hcov
    rcases List.mem_cons.mp hmem with heq | hrest
    · subst heq
      apply MemoryDisplay.foldl_compose_stable
      show (MemoryDisplay.compose s req.r).composite x y =
        MemoryDisplay.compose_pixel (s.layer_bg x y) (s.layer_presentation x y)
      unfold MemoryDisplay.compose
      dsimp only
      rw [if_pos hin]
    · exact ih (MemoryDisplay.compose s q.r) ⟨req, hrest, hin⟩

/-- Under the buffer invariants the uint8_t narrowing in the per-pixel
blend is the identity: the composite pixel is literally
bg.rgb * (255 - a) / 255 + pr.rgb with alpha 255. -/
theorem MemoryDisplay.compose_pixel_formula (bg pr : RGBA) (hbg : bg.wf) (hpr : pr.wf)
    (hprm : pr.premultiplied) :
    MemoryDisplay.compose_pixel bg pr =
      RGBA.mk (bg.r * (255 - pr.a) / 255 + pr.r) (bg.g * (255 - pr.a) / 255 + pr.g)
        (bg.b * (255 - pr.a) / 255 + pr.b) 255 := by
  obtain ⟨hr, hg, hb, ha⟩ := hbg
  obtain ⟨hr2, hg2, hb2, ha2⟩ := hpr
  obtain ⟨hp1, hp2, hp3⟩ := hprm
  have h1 := mul_div255_le bg.r (255 - pr.a) hr
  have h2 := mul_div255_le bg.g (255 - pr.a) hg
  have h3 := mul_div255_le bg.b (255 - pr.a) hb
  have e1 : (bg.r * (255 - pr.a) / 255 + pr.r) % 256 = bg.r * (255 - pr.a) / 255 + pr.r :=
    Nat.mod_eq_of_lt (by omega)
  have e2 : (bg.g * (255 - pr.a) / 255 + pr.g) % 256 = bg.g * (255 - pr.a) / 255 + pr.g :=
    Nat.mod_eq_of_lt (by omega)
  have e3 : (bg.b * (255 - pr.a) / 255 + pr.b) % 256 = bg.b * (255 - pr.a) / 255 + pr.b :=
    Nat.mod_eq_of_lt (by omega)
  unfold MemoryDisplay.compose_pixel
  rw [e1, e2, e3]

/-- The final unlock composes every queued rectangle: each covered pixel
of the composite equals the blend of the layers at unlock time. -/
theorem MemoryDisplay.unlock_composite (s : MemoryDisplay) (hl : s.locked = 1) (x y : Int)
    (hcov : ∃ req ∈ s.commit_requests,
      req.r.x0 ≤ x ∧ x < req.r.x1 ∧ req.r.y0 ≤ y ∧ y < req.r.y1) :
    (MemoryDisplay.unlock s).1.composite x y =
      MemoryDisplay.compose_pixel (s.layer_bg x y) (s.layer_presentation x y) := by
  unfold MemoryDisplay.unlock
  split
  · dsimp only
    split
    · dsimp only
      apply MemoryDisplay.foldl_compose_covered
      exact hcov
    · omega
  · omega

/-- C4: after locking a fresh display (with any backend rectangle) and
running any sequence of well-formed fill/blit/commit operations followed
by unlock, every pixel inside every committed rectangle of the composite
buffer equals bg.rgb * (255 - a) / 255 + pr.rgb with alpha 255, where bg
is the background pixel and pr the presentation pixel (holding
premultiplied alpha a) at unlock time. -/
theorem C4_display_compose (dl : Rect) (ops : List MemoryDisplay.DispOp)
    (hops : ∀ op ∈ ops, op.wf) (req : CommitRequest)
    (hreq : req ∈ (MemoryDisplay.runDisp
      (MemoryDisplay.lock MemoryDisplay.initial dl).1 ops).commit_requests)
    (x y : Int)
    (hx0 : req.r.x0 ≤ x) (hx1 : x < req.r.x1) (hy0 : req.r.y0 ≤ y) (hy1 : y < req.r.y1) :
    (MemoryDisplay.unlock (MemoryDisplay.runDisp
        (MemoryDisplay.lock MemoryDisplay.initial dl).1 ops)).1.composite x y =
      RGBA.mk
        (((MemoryDisplay.runDisp (MemoryDisplay.lock MemoryDisplay.initial dl).1 ops).layer_bg x y).r *
          (255 - ((MemoryDisplay.runDisp (MemoryDisplay.lock MemoryDisplay.initial dl).1 ops).layer_presentation x y).a) / 255 +
          ((MemoryDisplay.runDisp (MemoryDisplay.lock MemoryDisplay.initial dl).1 ops).layer_presentation x y).r)
        (((MemoryDisplay.runDisp (MemoryDisplay.lock MemoryDisplay.initial dl).1 ops).layer_bg x y).g *
          (255 - ((MemoryDisplay.runDisp (MemoryDisplay.lock MemoryDisplay.initial dl).1 ops).layer_presentation x y).a) / 255 +
          ((MemoryDisplay.runDisp (MemoryDisplay.lock MemoryDisplay.initial dl).1 ops).layer_presentation x y).g)
        (((MemoryDisplay.runDisp (MemoryDisplay.lock MemoryDisplay.initial dl).1 ops).layer_bg x y).b *
          (255 - ((MemoryDisplay.runDisp (MemoryDisplay.lock MemoryDisplay.initial dl).1 ops).layer_presentation x y).a) / 255 +
          ((MemoryDisplay.runDisp (MemoryDisplay.lock MemoryDisplay.initial dl).1 ops).layer_presentation x y).b)
        255 := by
  have hl0 : (MemoryDisplay.lock MemoryDisplay.initial dl).1.locked = 1 :=
    (MemoryDisplay.lock_proj MemoryDisplay.initial dl).1
  have hl1 : (MemoryDisplay.runDisp (MemoryDisplay.lock MemoryDisplay.initial dl).1 ops).locked = 1 := by
    rw [MemoryDisplay.runDisp_locked]
    exact hl0
  have hwf0 : (MemoryDisplay.lock MemoryDisplay.initial dl).1.buffers_wf := by
    obtain ⟨_, hbgeq, hpreq⟩ := MemoryDisplay.lock_proj MemoryDisplay.initial dl
    constructor
    · intro u v
      rw [hbgeq]
      exact show (RGBA.mk 0 0 0 0).wf by decide
    · intro u v
      rw [hpreq]
      exact show (RGBA.mk 0 0 0 0).wf ∧ (RGBA.mk 0 0 0 0).premultiplied by decide
  have hwf1 := MemoryDisplay.runDisp_buffers_wf ops _ hwf0 hops
  rw [MemoryDisplay.unlock_composite _ hl1 x y ⟨req, hreq, hx0, hx1, hy0, hy1⟩]
  exact MemoryDisplay.compose_pixel_formula _ _ (hwf1.1 x y) (hwf1.2 x y).1 (hwf1.2 x y).2

/-- C4 witness: a background fill with (100,150,200,255), a half-alpha
red presentation blit on the left pixel and a full-surface commit on a
2 x 1 display; the composite at (0,0) follows the blend formula and
evaluates to (177,74,99,255). -/
theorem C4_display_compose_witness :
    (⟨⟨0, 0, 2, 1⟩, ⟨0, 0⟩⟩ : CommitRequest) ∈
      (MemoryDisplay.runDisp (MemoryDisplay.lock MemoryDisplay.initial ⟨0, 0, 2, 1⟩).1
        [MemoryDisplay.DispOp.fill Layer.Background ⟨100, 150, 200, 255⟩ ⟨0, 0, 2, 1⟩,
         MemoryDisplay.DispOp.blit Layer.Presentation ⟨255, 0, 0, 255⟩ (fun _ _ => 128)
           ⟨0, 0, 1, 1⟩ DrawMode.Write,
         MemoryDisplay.DispOp.commit ⟨0, 0, 2, 1⟩ ⟨0, 0⟩]).commit_requests ∧
    (MemoryDisplay.unlock (MemoryDisplay.runDisp
        (MemoryDisplay.lock MemoryDisplay.initial ⟨0, 0, 2, 1⟩).1
        [MemoryDisplay.DispOp.fill Layer.Background ⟨100, 150, 200, 255⟩ ⟨0, 0, 2, 1⟩,
         MemoryDisplay.DispOp.blit Layer.Presentation ⟨255, 0, 0, 255⟩ (fun _ _ => 128)
           ⟨0, 0, 1, 1⟩ DrawMode.Write,
         MemoryDisplay.DispOp.commit ⟨0, 0, 2, 1⟩ ⟨0, 0⟩])).1.composite 0 0 =
      ⟨177, 74, 99, 255⟩ := by
  have hops : ∀ op ∈
      [MemoryDisplay.DispOp.fill Layer.Background (⟨100, 150, 200, 255⟩ : RGBA) ⟨0, 0, 2, 1⟩,
       MemoryDisplay.DispOp.blit Layer.Presentation ⟨255, 0, 0, 255⟩ (fun _ _ => 128)
         ⟨0, 0, 1, 1⟩ DrawMode.Write,
       MemoryDisplay.DispOp.commit ⟨0, 0, 2, 1⟩ ⟨0, 0⟩], op.wf := by
    intro op hop
    simp only [List.mem_cons, List.not_mem_nil, or_false] at hop
    rcases hop with rfl | rfl | rfl
    · exact (by decide : (RGBA.mk 100 150 200 255).wf)
    · exact ⟨by decide, fun i j => by norm_num⟩
    · exact trivial
  refine ⟨by decide, ?_⟩
  have h := C4_display_compose ⟨0, 0, 2, 1⟩ _ hops ⟨⟨0, 0, 2, 1⟩, ⟨0, 0⟩⟩ (by decide) 0 0
    (by decide) (by decide) (by decide) (by decide)
  rw [h]
  decide

/-- C7: the resize guard of MemoryDisplay::Impl::resize tests
w == m_width OR h == m_height, so when only one dimension of the display
changes the buffers are not resized.  Locking a fresh display at
100 x 50, unlocking, and locking again with the backend now reporting
200 x 50 performs the 0-to-1 lock transition and stores the new display
rectangle, but leaves the internal buffers (and hence the returned
surface rectangle) at 100 x 50 although the geometry changed. -/
theorem C7_lock_resize_guard_bug :
    ((MemoryDisplay.lock MemoryDisplay.initial ⟨0, 0, 100, 50⟩).1.width = 100 ∧
     (MemoryDisplay.lock MemoryDisplay.initial ⟨0, 0, 100, 50⟩).1.height = 50 ∧
     (MemoryDisplay.lock MemoryDisplay.initial ⟨0, 0, 100, 50⟩).1.locked = 1) ∧
    (MemoryDisplay.unlock (MemoryDisplay.lock MemoryDisplay.initial ⟨0, 0, 100, 50⟩).1).1.locked
      = 0 ∧
    ((MemoryDisplay.lock (MemoryDisplay.unlock
        (MemoryDisplay.lock MemoryDisplay.initial ⟨0, 0, 100, 50⟩).1).1
        ⟨0, 0, 200, 50⟩).1.display_rect = ⟨0, 0, 200, 50⟩ ∧
     (MemoryDisplay.lock (MemoryDisplay.unlock
        (MemoryDisplay.lock MemoryDisplay.initial ⟨0, 0, 100, 50⟩).1).1
        ⟨0, 0, 200, 50⟩).1.width = 100 ∧
     (MemoryDisplay.lock (MemoryDisplay.unlock
        (MemoryDisplay.lock MemoryDisplay.initial ⟨0, 0, 100, 50⟩).1).1
        ⟨0, 0, 200, 50⟩).1.height = 50) ∧
    (MemoryDisplay.lock (MemoryDisplay.unlock
        (MemoryDisplay.lock MemoryDisplay.initial ⟨0, 0, 100, 50⟩).1).1
        ⟨0, 0, 200, 50⟩).2 = ⟨0, 0, 100, 50⟩ := by
  exact ⟨⟨by decide, by decide, by decide⟩, by decide, ⟨by decide, by decide, by decide⟩,
    by decide⟩

/-- C10 witness: the roundtrip at g = 9. -/
theorem C10_greyscale_roundtrip_witness :
    (9 : Nat) < 16 ∧
    epaper_emulation.rgba_to_greyscale (epaper_emulation.greyscale_to_rgba 9) = 9 :=
  ⟨by decide, C10_greyscale_roundtrip 9 (by decide)⟩

end Inktty
